import Mathlib

/-!
Shallow embedding of the bookeat-chatbot-service retrieval core.

Python floats are modelled as exact rationals (`ℚ`), Python dictionaries as
insertion-ordered association lists, Python sets as `Finset`/deduplicated
lists.  Every definition is translated from the repository sources:
`app/services/vector_intent_service.py`, `app/services/menu_reasoning_service.py`,
`app/services/vector_service.py` and `app/agents/restaurant_agent.py`.
External collaborators (the vector index, the LLM oracle, `ast.literal_eval`,
the batch entity lookup) appear as explicit function parameters.
-/

namespace BookEat

/-! ### String helpers (Python `str.lower`, `in`, `str.isdigit`, `int(...)`) -/

/-- Python `str.lower()`; `Char.toLower` covers the ASCII range, which is all
the embedded string constants and claim inputs exercise. -/
def pyLower (s : String) : String := ⟨s.data.map Char.toLower⟩

/-- Python `sep.join(parts)`. -/
def pyJoin (sep : String) : List String → String
  | [] => ""
  | [x] => x
  | x :: xs => x ++ sep ++ pyJoin sep xs

/-- `startsAt n h` holds when the character list `n` is an initial segment of `h`. -/
def startsAt : List Char → List Char → Bool
  | [], _ => true
  | _ :: _, [] => false
  | c :: cs, d :: ds => c == d && startsAt cs ds

/-- `hasSub n h`: `n` occurs contiguously somewhere in `h`. -/
def hasSub (n : List Char) : List Char → Bool
  | [] => startsAt n []
  | d :: ds => startsAt n (d :: ds) || hasSub n ds

/-- Python's substring containment `needle in hay`. -/
def pyIn (needle hay : String) : Bool := hasSub needle.data hay.data

/-- Python `str.isdigit()` restricted to ASCII digits (the id strings the
service handles); an empty string is not a digit string. -/
def isDigitStr (s : String) : Bool := !s.data.isEmpty && s.data.all Char.isDigit

/-- Python `int(s)` for a decimal digit string. -/
def digitsToNat (s : String) : Nat :=
  s.data.foldl (fun acc c => acc * 10 + (c.toNat - '0'.toNat)) 0

/-! ### Python values and dictionaries -/

/-- A Python value as stored in result metadata: string, int, bool, float
(rational), list of strings (tag lists), or `None`. -/
inductive Val where
  | s (str : String)
  | i (n : Int)
  | b (bv : Bool)
  | q (x : ℚ)
  | l (vs : List String)
  | none
deriving DecidableEq

/-- A Python dict: insertion-ordered association list with distinct keys. -/
abbrev Metadata := List (String × Val)

/-- `d.get(k)` (i.e. default `None`). -/
def pyGet (md : Metadata) (k : String) : Val :=
  (md.lookup k).getD Val.none

/-- `d.get(k, default)`. -/
def pyGetD (md : Metadata) (k : String) (dflt : Val) : Val :=
  (md.lookup k).getD dflt

/-- `d[k] = v` on an insertion-ordered association list: overwrite the first
binding of `k`, else append at the end. -/
def assocSet {α : Type _} : List (String × α) → String → α → List (String × α)
  | [], k, v => [(k, v)]
  | (k', v') :: rest, k, v =>
      if k' = k then (k, v) :: rest else (k', v') :: assocSet rest k v

/-- `d[k] = v` on a Python dict of values. -/
def pySet (md : Metadata) (k : String) (v : Val) : Metadata := assocSet md k v

/-- Python truthiness of a value (`bool(v)`). -/
def truthy : Val → Bool
  | .s str => str ≠ ""
  | .i n => n ≠ 0
  | .b bv => bv
  | .q x => x ≠ 0
  | .l vs => !vs.isEmpty
  | .none => false

/-- Python `a or b` on values: `b` when `a` is falsy. -/
def pyOr (a b : Val) : Val := if truthy a then a else b

/-- Python `a or b` falsy-chaining over a list of values, with a final default:
`v₁ or v₂ or … or dflt`. -/
def pyOrChain (dflt : Val) : List Val → Val
  | [] => dflt
  | v :: vs => if truthy v then v else pyOrChain dflt vs

/-- Python `str(v)` for the values used as aggregation keys. -/
def pyStr : Val → String
  | .s str => str
  | .i n => toString n
  | .b bv => if bv then "True" else "False"
  | .q x => toString x
  | .l _ => "[list]"
  | .none => "None"

/-! ### `vector_intent_service.py` — intent results -/

/-- The fields of an intent-classification result dict that the combination
logic reads (`intent`, `confidence`, `method`; `api_function` is carried
along untouched). -/
structure IntentResult where
  intent : String
  confidence : ℚ
  apiFunction : Option String
  method : String
deriving DecidableEq

/-- One hit of the intent-embedding collection (`search_intents` output),
projected to the metadata fields `_vector_intent_classify` reads:
`metadata.get('intent', …)` and `metadata.get('api_function')`. -/
structure IntentHit where
  distance : ℚ
  intentLabel : Option String
  apiFun : Option String
deriving DecidableEq

/-- Python `a or b` on optional strings (`None` and `""` are falsy). -/
def pyOrStr (a b : Option String) : Option String :=
  match a with
  | some t => if t = "" then b else some t
  | Option.none => b

/-- `_vector_intent_classify` (vector_intent_service.py:167-216), with the
external `search_intents` call replaced by its result list `hits` and the
`intent_definitions` table by the lookup `defs`. -/
def vectorIntentClassify (defs : String → Option String) (hits : List IntentHit) :
    IntentResult :=
  match hits with
  | [] => ⟨"general_inquiry", 0, Option.none, "intent_collection_no_match"⟩
  | h :: _ =>
      if h.distance < 2/5 then
        let confidence := min ((1 - h.distance) * (95/100)) (98/100)
        let intentName := h.intentLabel.getD "general_inquiry"
        ⟨intentName, confidence, pyOrStr h.apiFun (defs intentName), "intent_collection"⟩
      else ⟨"general_inquiry", 0, Option.none, "intent_collection_no_match"⟩

/-- `_combine_intent_results_priority` (vector_intent_service.py:435-517). -/
def combineIntentResultsPriority (icr llm vec pat : IntentResult) : IntentResult :=
  -- Priority 1: intent collection when confidence ≥ 0.8
  if icr.confidence ≥ 8/10 then icr
  else if llm.intent = "general_inquiry" ∧ pat.intent ≠ "general_inquiry" ∧
      pat.confidence ≥ 1/2 then
    { pat with confidence := max pat.confidence (7/10),
               method := "pattern_override_llm_general" }
  else if llm.confidence < 7/10 ∧ pat.intent ≠ "general_inquiry" ∧
      pat.confidence ≥ 1/2 then
    { pat with confidence := max pat.confidence (7/10),
               method := "pattern_override_llm_low_confidence" }
  else if llm.confidence ≥ 1/2 then llm
  else if pat.confidence ≥ 1/2 then pat
  else if vec.confidence ≥ 3/5 then vec
  else if icr.confidence > 0 then icr
  else if llm.confidence > 0 then llm
  else if vec.confidence > 0 then vec
  else pat

/-- Outcome of `_verify_intent_with_data` (an external, data-dependent check),
projected to the fields `recognize_intent_with_context` reads. -/
structure VerifyResult where
  intentValid : Bool
  suggestIntent : Option String
  suggestConfidence : ℚ
deriving DecidableEq

/-- `recognize_intent_with_context` (vector_intent_service.py:72-164).

In the source, the statements
`pattern_intent = self._pattern_based_recognition(user_message)` and
`final_intent = self._combine_intent_results_priority(...)` are indented at
the level of the `if intent_collection_result.get("confidence", 0) >= 0.8:`
statement, not inside its `else:` branch.  When the high-confidence branch is
taken, `llm_intent` and `vector_intent` were therefore never assigned, the
combine call raises `UnboundLocalError`, and the enclosing
`except Exception` handler returns the pattern-based result with
`method = "pattern_fallback_error"`.  The embedding reproduces that
observable behaviour directly. -/
def recognizeIntentWithContext (defs : String → Option String)
    (labelHits : List IntentHit) (llm vec pat : IntentResult)
    (verify : IntentResult → VerifyResult) : IntentResult :=
  let icr := vectorIntentClassify defs labelHits
  if icr.confidence ≥ 8/10 then
    -- UnboundLocalError in the combine call → outer exception handler
    { pat with method := "pattern_fallback_error" }
  else
    let fi := combineIntentResultsPriority icr llm vec pat
    if fi.method = "llm_classification" ∧ fi.confidence ≥ 3/5 then fi
    else
      let v := verify fi
      if v.intentValid then fi
      else
        match v.suggestIntent with
        | some s =>
            { fi with intent := s, confidence := v.suggestConfidence,
                      method := "verified_adjusted" }
        | Option.none => fi

/-! ### `menu_reasoning_service.py` — preference profiles -/

/-- `diet_profile` sub-dict of a preference profile. -/
structure DietProfile where
  highProtein : Bool
  lowCarb : Bool
  lowFat : Bool
  lightMeal : Bool
deriving DecidableEq

/-- A validated preference profile (the shape `_validate_profile` guarantees,
menu_reasoning_service.py:338-411). -/
structure Profile where
  dietProfile : DietProfile
  occasion : String
  temperature : String
  spiceLevel : String
  cuisine : List String
  isLocalSpecialty : Bool
  goals : List String
  constraintsText : List String
  searchQuery : String
  summary : String
deriving DecidableEq

/-- `MenuReasoningService._default_profile` (menu_reasoning_service.py:20-39). -/
def defaultProfile : Profile where
  dietProfile := ⟨false, false, false, false⟩
  occasion := "any"
  temperature := "any"
  spiceLevel := "any"
  cuisine := []
  isLocalSpecialty := false
  goals := []
  constraintsText := []
  searchQuery := ""
  summary := ""

/-- `universal_query_reasoning` (menu_reasoning_service.py:51-337).  The
oracle call, JSON decode and `_validate_profile` are summarised by the
parameter `oracle`: `some p` is a successfully parsed and validated profile,
`none` covers an invalid-JSON response, an empty response, and a raised
error — all three source paths build the same fallback
`{**self._default_profile, "summary": user_message, "search_query": user_message}`. -/
def universalQueryReasoning (oracle : Option Profile) (userMessage : String) : Profile :=
  match oracle with
  | some validated =>
      -- fallback: nếu search_query không có, tạo từ summary rồi user_message
      if validated.searchQuery = "" then
        if validated.summary ≠ "" then { validated with searchQuery := validated.summary }
        else { validated with searchQuery := userMessage }
      else validated
  | Option.none => { defaultProfile with summary := userMessage, searchQuery := userMessage }

/-! ### `restaurant_agent.py:619-763` — `_extract_forbidden_tags` -/

/-- `any(keyword in hay for keyword in keys)`. -/
def anyIn (keys : List String) (hay : String) : Bool := keys.any (fun k => pyIn k hay)

/-- The seafood tag bundle used twice by `_extract_forbidden_tags`. -/
def seafoodTags : List String :=
  ["seafood", "hải sản", "shrimp", "tôm", "crab", "cua", "squid", "mực",
   "clam", "nghêu", "scallop", "sò", "sò điệp", "snail", "ốc", "oyster", "hàu"]

/-- Scar / post-surgery condition detection (restaurant_agent.py:641-643). -/
def isScarCondition (summary constraintsStr : String) : Bool :=
  anyIn ["sẹo", "vết mổ", "mới phẫu thuật", "phẫu thuật", "vết thương"] summary ||
  anyIn ["sẹo", "vết mổ"] constraintsStr

/-- Vegetarian condition detection (restaurant_agent.py:645-649). -/
def isVegetarianCondition (summary constraintsStr : String) : Bool :=
  anyIn ["ăn chay", "đồ chay", "vegetarian", "vegan"] summary ||
  anyIn ["ăn chay", "đồ chay", "không ăn thịt"] constraintsStr

/-- Gout condition detection (restaurant_agent.py:651-653). -/
def isGoutCondition (summary constraintsStr : String) : Bool :=
  anyIn ["gout", "đau khớp"] summary ||
  anyIn ["gout", "đau khớp", "thịt đỏ"] constraintsStr

/-- Tags contributed by one constraint string (already lowered) — the body of
the `for constraint in constraints_text:` loop (restaurant_agent.py:656-723),
which appends each matching bundle in order. -/
def constraintTags (cl : String) : List String :=
  (if anyIn ["tránh thịt bò", "kiêng bò", "không bò", "tránh bò"] cl then
    ["beef", "thịt bò", "bò"] else []) ++
  (if anyIn ["tránh hải sản", "kiêng hải sản", "không hải sản"] cl then
    seafoodTags else []) ++
  (if pyIn "tránh tôm" cl || pyIn "kiêng tôm" cl then ["shrimp", "tôm"] else []) ++
  (if pyIn "tránh cua" cl || pyIn "kiêng cua" cl then ["crab", "cua"] else []) ++
  (if pyIn "tránh mực" cl || pyIn "kiêng mực" cl then ["squid", "mực"] else []) ++
  (if anyIn ["không cay", "tránh cay", "kiêng cay", "không quá cay",
      "ít cay", "hạn chế cay", "không ớt"] cl then
    ["spicy", "cay", "ớt", "pepper", "chili"] else []) ++
  (if anyIn ["tránh đồ chiên", "tránh đồ xào", "kiêng chiên xào",
      "hạn chế đồ chiên xào", "không chiên", "không xào"] cl then
    ["fried", "deep_fried", "chiên", "xào", "pan_fried"] else []) ++
  (if anyIn ["ít đường", "không đường", "tránh đường", "kiêng đường",
      "tránh đồ ngọt", "ít ngọt", "không ngọt", "tiểu đường"] cl then
    ["sweet", "dessert", "sugar", "đường", "ngọt", "caramel"] else []) ++
  (if anyIn ["ít muối", "không muối", "tránh muối", "huyết áp cao",
      "tăng huyết áp", "ít mặn", "không mặn"] cl then
    ["mặn", "muối", "salty"] else []) ++
  (if anyIn ["tránh rượu", "kiêng rượu", "không rượu", "gan yếu", "viêm gan"] cl then
    ["alcohol", "rượu", "beer", "bia", "wine"] else [])

/-- `_extract_forbidden_tags` (restaurant_agent.py:619-763).  The source
returns `list(set(forbidden_tags))`, whose element order is unspecified in
Python; the embedding returns the first-occurrence deduplication, and all
theorems about it only use membership and emptiness. -/
def extractForbiddenTags (profile : Profile) : List String :=
  let constraints := profile.constraintsText
  let summary := pyLower profile.summary
  let constraintsStr := pyLower (pyJoin " " constraints)
  let scar := isScarCondition summary constraintsStr
  let veg := isVegetarianCondition summary constraintsStr
  let gout := isGoutCondition summary constraintsStr
  let ft := constraints.foldl (fun acc c => acc ++ constraintTags (pyLower c)) []
  let ft :=
    if scar then
      let ft := if !ft.contains "beef" && !ft.contains "thịt bò" then
          ft ++ ["beef", "thịt bò", "bò"] else ft
      if !ft.contains "seafood" && !ft.contains "hải sản" then
        ft ++ seafoodTags else ft
    else ft
  let ft := if veg then
      ft ++ ["beef", "pork", "chicken", "meat", "thịt bò", "thịt heo", "thịt gà", "thịt"]
    else ft
  let ft := if gout then
      ft ++ ["beef", "thịt bò", "pork", "thịt heo", "lamb", "thịt cừu"]
    else ft
  let ft :=
    if !scar && !gout then
      constraints.foldl (fun acc c =>
        if anyIn ["không thịt", "tránh thịt", "kiêng thịt", "không có thịt"]
            (pyLower c) then
          if !acc.contains "meat" && !acc.contains "thịt" then
            acc ++ ["beef", "pork", "chicken", "meat",
                    "thịt bò", "thịt heo", "thịt gà", "thịt"]
          else acc
        else acc) ft
    else ft
  ft.dedup

/-! ### `restaurant_agent.py:765-867` — `_filter_by_forbidden_tags` -/

/-- One search-result item as produced by the fan-out searches: the filter
reads only `item.get("metadata", {})` and keeps the rest of the dict intact. -/
structure SearchItem where
  id : Val
  metadata : Metadata
  distance : Option ℚ
deriving DecidableEq

/-- Tag-list coercion (restaurant_agent.py:793-801 and 804-812):
`ast.literal_eval` is an external library call, represented by the `parse`
parameter (`none` models a raised exception). -/
def coerceTags (parse : String → Option Val) (v : Val) : List String :=
  match v with
  | .l vs => vs
  | .s t =>
      if startsAt ['['] t.data then
        match parse t with
        | some (.l vs) => vs
        | some _ => []        -- literal_eval yielded a non-list → `tags = []`
        | Option.none => [t]  -- exception branch: `[tags] if tags else []`, t ≠ ""
      else [t]
  | _ => []                    -- non-str non-list → `tags = []`

/-- The `ingredients` text coercion (restaurant_agent.py:818-824). -/
def coerceIngredients : Val → String
  | .s t => pyLower t
  | .l vs => pyLower (pyJoin " " vs)
  | _ => ""

/-- `(metadata.get(k) or "").lower()`; the source would raise on a non-string
truthy value, which no caller produces. -/
def lowerTextField (md : Metadata) (k : String) : String :=
  match pyOr (pyGet md k) (.s "") with
  | .s t => pyLower t
  | _ => ""

/-- `forbidden_lower == tag.lower()` over a tag list. -/
def tagMatch (fl : String) (tags : List String) : Bool :=
  tags.any (fun t => fl = pyLower t)

/-- The per-item forbidden check (restaurant_agent.py:827-846): exact match
in `ingredient_tags`, exact match in `tags`, or substring match in
name / description / ingredients; the `break` makes it a disjunction over
the exclusion tags. -/
def itemHasForbidden (parse : String → Option Val) (forbidden : List String)
    (md : Metadata) : Bool :=
  let tags := coerceTags parse (pyGetD md "tags" (.l []))
  let ingredientTags := coerceTags parse (pyGetD md "ingredient_tags" (.l []))
  let name := lowerTextField md "name"
  let description := lowerTextField md "description"
  let ingredients := coerceIngredients (pyGetD md "ingredients" (.s ""))
  forbidden.any (fun f =>
    let fl := pyLower f
    tagMatch fl ingredientTags || tagMatch fl tags ||
      (pyIn fl name || pyIn fl description || pyIn fl ingredients))

/-- `_filter_by_forbidden_tags` (restaurant_agent.py:765-867): only the
`"menus"` collection is filtered; every other collection passes through. -/
def filterByForbiddenTags (parse : String → Option Val)
    (searchResults : List (String × List SearchItem)) (forbidden : List String) :
    List (String × List SearchItem) :=
  if forbidden.isEmpty then searchResults
  else
    searchResults.map (fun p =>
      if p.1 = "menus" then
        (p.1, p.2.filter (fun it => !itemHasForbidden parse forbidden it.metadata))
      else p)

/-! ### `restaurant_agent.py:587-618` — id extraction and item-type detection -/

def candidateIdKeys : List String :=
  ["restaurant_id", "restaurantId", "restaurantID", "id"]

/-- Digit strings are converted with `int(value)`
(restaurant_agent.py:598-603). -/
def normalizeIdVal (v : Val) : Val :=
  match v with
  | .s t => if isDigitStr t then .i (digitsToNat t) else .s t
  | _ => v

/-- `_extract_restaurant_id_from_metadata` (restaurant_agent.py:587-605). -/
def extractRestaurantIdFromMetadata (md : Metadata) : Option Val :=
  if md.isEmpty then Option.none
  else
    candidateIdKeys.findSome? (fun k =>
      match md.lookup k with
      | some v =>
          if v = Val.none ∨ v = Val.s "" then Option.none
          else some (normalizeIdVal v)
      | Option.none => Option.none)

def serviceIndicators : List String :=
  ["serviceid", "servicename", "service_name", "servicecategory", "servicetype",
   "duration"]

def tableIndicators : List String :=
  ["tableid", "tablename", "table_name", "capacity", "tabletype", "tablelayout"]

/-- `_detect_collection_item_type` (restaurant_agent.py:607-617). -/
def detectCollectionItemType (md : Metadata) : String :=
  if md.isEmpty then "menu"
  else
    let lowered := md.map (fun kv => pyLower kv.1)
    if lowered.any (fun k => serviceIndicators.contains k) then "service"
    else if lowered.any (fun k => tableIndicators.contains k) then "table"
    else "menu"

/-! ### `restaurant_agent.py:869-925` — matched-item simplification -/

/-- The dict `_simplify_matched_item` returns (restaurant_agent.py:900-925). -/
structure MatchedItem where
  name : Val
  description : Val
  price : Val
  distance : ℚ
  itemType : String
  metadata : Metadata
deriving DecidableEq

def simplifyMatchedItem (md : Metadata) (distance : ℚ) (itemType : String) :
    MatchedItem where
  name := pyOr (pyGet md "name") (pyOr (pyGet md "dishName")
    (pyOr (pyGet md "serviceName") (pyOr (pyGet md "tableName")
      (pyOr (pyGet md "title") (.s "N/A")))))
  description := pyOr (pyGet md "description") (pyOr (pyGet md "serviceDescription")
    (pyOr (pyGet md "details") (pyGet md "note")))
  price := pyOr (pyGet md "price") (pyOr (pyGet md "cost") (pyGet md "amount"))
  distance := distance
  itemType := itemType
  metadata := md

/-- The image dict built in the `image_url` loop
(restaurant_agent.py:1048-1054); `type` is a reserved shape, hence `imgType`. -/
structure ImageItem where
  url : Val
  mediaId : Val
  imgType : Val
  distance : ℚ
  metadata : Metadata
deriving DecidableEq

def mkImageItem (md : Metadata) (distance : ℚ) : ImageItem where
  url := pyGet md "url"
  mediaId := pyGet md "mediaId"
  imgType := pyGetD md "type" (.s "table_layout")
  distance := distance
  metadata := md

/-! ### `restaurant_agent.py:926-1132` — `_aggregate_search_results` -/

/-- One per-entity accumulator dict of the aggregation
(restaurant_agent.py:945-955 etc.). -/
structure Agg where
  restaurantId : Val
  restaurant : Option Metadata
  matchedMenus : List MatchedItem
  matchedServices : List MatchedItem
  matchedTables : List MatchedItem
  matchedImages : List ImageItem
  score : ℚ
  sources : Finset String
deriving DecidableEq

/-- Aggregation state: the insertion-ordered `aggregated` dict plus the
`missing_restaurant_ids` set (kept as an insertion-ordered deduplicated
list; Python's set iteration order is unspecified and no claim depends on
it). -/
structure AggSt where
  groups : List (String × Agg)
  missing : List Val
deriving DecidableEq

def addMissing (ms : List Val) (v : Val) : List Val :=
  if ms.contains v then ms else ms ++ [v]

def freshAggRestaurants (rid : Val) (md : Metadata) : Agg :=
  ⟨rid, some md, [], [], [], [], 0, {"restaurants"}⟩

def freshAggEmpty (rid : Val) : Agg :=
  ⟨rid, Option.none, [], [], [], [], 0, ∅⟩

/-- `max(0.0, 1.0 - entry.get("distance", 1.0))`. -/
def hitScore (e : SearchItem) : ℚ := max 0 (1 - e.distance.getD 1)

/-- Read-modify-write of the `aggregated` dict at one key (the
`aggregated.get(key)` / `aggregated[key] = aggregator` pattern every loop
shares). -/
def applyAtKey (gs : List (String × Agg)) (k : String) (f : Option Agg → Agg) :
    List (String × Agg) :=
  assocSet gs k (f (gs.lookup k))

/-- The per-group update of the `restaurant_entries` loop
(restaurant_agent.py:940-961): create with the primary metadata, or fill a
falsy `restaurant` slot; record the source; accumulate the score. -/
def updRestaurant (rid : Val) (md : Metadata) (sc : ℚ) : Option Agg → Agg
  | Option.none =>
      let a := freshAggRestaurants rid md
      { a with score := a.score + sc }
  | some a0 =>
      let a0 :=
        if a0.restaurant = Option.none ∨ a0.restaurant = some ([] : Metadata)
        then { a0 with restaurant := some md } else a0
      let a := { a0 with sources := a0.sources ∪ {"restaurants"} }
      { a with score := a.score + sc }

/-- The `restaurant_entries` loop body (restaurant_agent.py:938-961). -/
def stepRestaurant (st : AggSt) (e : SearchItem) : AggSt :=
  match extractRestaurantIdFromMetadata e.metadata with
  | Option.none => st
  | some rid =>
      { st with groups := applyAtKey st.groups (pyStr rid) (updRestaurant rid e.metadata (hitScore e)) }

/-- The per-group update of the `menu_entries` loop
(restaurant_agent.py:969-998): classify the sub-item into services / tables /
menus, record the source, accumulate the score. -/
def updMenu (rid : Val) (md : Metadata) (d sc : ℚ) : Option Agg → Agg := fun o =>
  let a0 := o.getD (freshAggEmpty rid)
  let itemType := detectCollectionItemType md
  let item := simplifyMatchedItem md d itemType
  let a1 :=
    if itemType = "service" then
      { a0 with matchedServices := a0.matchedServices ++ [item],
                sources := a0.sources ∪ {"services"} }
    else if itemType = "table" then
      { a0 with matchedTables := a0.matchedTables ++ [item],
                sources := a0.sources ∪ {"tables"} }
    else
      { a0 with matchedMenus := a0.matchedMenus ++ [item],
                sources := a0.sources ∪ {"menus"} }
  { a1 with score := a1.score + sc }

/-- The `menu_entries` loop body (restaurant_agent.py:963-999); ids of groups
still lacking primary attributes are recorded in `missing_restaurant_ids`. -/
def stepMenu (st : AggSt) (e : SearchItem) : AggSt :=
  match extractRestaurantIdFromMetadata e.metadata with
  | Option.none => st
  | some rid =>
      let k := pyStr rid
      let a0 := (st.groups.lookup k).getD (freshAggEmpty rid)
      let missing := if a0.restaurant = Option.none then addMissing st.missing rid
        else st.missing
      ⟨applyAtKey st.groups k
        (updMenu rid e.metadata (e.distance.getD 1) (hitScore e)), missing⟩

/-- The per-group update of the `table_entries` loop
(restaurant_agent.py:1012-1026). -/
def updTable (rid : Val) (md : Metadata) (d sc : ℚ) : Option Agg → Agg := fun o =>
  let a0 := o.getD (freshAggEmpty rid)
  let item := simplifyMatchedItem md d "table"
  let a1 := { a0 with matchedTables := a0.matchedTables ++ [item],
                      sources := a0.sources ∪ {"tables"} }
  { a1 with score := a1.score + sc }

/-- The `table_entries` loop body (restaurant_agent.py:1001-1026). -/
def stepTable (st : AggSt) (e : SearchItem) : AggSt :=
  match extractRestaurantIdFromMetadata e.metadata with
  | Option.none => st
  | some rid =>
      { st with groups := applyAtKey st.groups (pyStr rid) (updTable rid e.metadata (e.distance.getD 1) (hitScore e)) }

/-- The per-group update of the `image_entries` loop
(restaurant_agent.py:1039-1056). -/
def updImage (rid : Val) (md : Metadata) (d sc : ℚ) : Option Agg → Agg := fun o =>
  let a0 := o.getD (freshAggEmpty rid)
  let item := mkImageItem md d
  let a1 := { a0 with matchedImages := a0.matchedImages ++ [item],
                      sources := a0.sources ∪ {"image_url"} }
  { a1 with score := a1.score + sc }

/-- The `image_entries` loop body (restaurant_agent.py:1028-1057): the owner
id is read directly from `metadata.get("restaurant_id")`, without the
candidate-key scan or digit normalization. -/
def stepImage (st : AggSt) (e : SearchItem) : AggSt :=
  match e.metadata.lookup "restaurant_id" with
  | Option.none => st
  | some rid =>
      if rid = Val.none then st
      else
        { st with groups := applyAtKey st.groups (pyStr rid) (updImage rid e.metadata (e.distance.getD 1) (hitScore e)) }

/-- The backfill stage (restaurant_agent.py:1059-1064): a single batch
lookup over `missing_restaurant_ids`, represented per id by `fetch`
(`get_restaurants_by_ids`; `none` = id absent from the returned map). -/
def backfillStep (fetch : Val → Option Metadata) (gs : List (String × Agg))
    (rid : Val) : List (String × Agg) :=
  match fetch rid with
  | some payload =>
      let k := pyStr rid
      match gs.lookup k with
      | some a =>
          if payload ≠ ([] : Metadata) then
            assocSet gs k { a with restaurant := some payload }
          else gs
      | Option.none => gs
  | Option.none => gs

def backfill (fetch : Val → Option Metadata) (st : AggSt) : List (String × Agg) :=
  st.missing.foldl (backfillStep fetch) st.groups

/-- The `aggregated` dict after all four loops and the backfill. -/
def finalGroups (fetch : Val → Option Metadata)
    (restaurants menus tables images : List SearchItem) : List (String × Agg) :=
  backfill fetch
    (images.foldl stepImage
      (tables.foldl stepTable
        (menus.foldl stepMenu
          (restaurants.foldl stepRestaurant ⟨[], []⟩))))

/-- Python `round(x, 4)`: round half to even on the exact rational. -/
def pyRound4 (x : ℚ) : ℚ :=
  let y := x * 10000
  let f : ℤ := ⌊y⌋
  let r := y - f
  let n : ℤ :=
    if r > 1/2 then f + 1
    else if r < 1/2 then f
    else if f % 2 = 0 then f else f + 1
  (n : ℚ) / 10000

/-- One aggregate entity as emitted (restaurant_agent.py:1072-1081):
`restaurant_copy` split into its plain attributes and the underscore
fields. -/
structure AggEntity where
  attrs : Metadata
  matchedMenus : List MatchedItem
  matchedServices : List MatchedItem
  matchedTables : List MatchedItem
  matchedImages : List ImageItem
  matchScore : ℚ
  matchSources : Finset String
deriving DecidableEq

/-- `restaurant_meta`/`restaurant_copy` construction with
`setdefault("id", ...)` (restaurant_agent.py:1072-1074). -/
def groupAttrs (a : Agg) : Metadata :=
  let restaurantMeta :=
    match a.restaurant with
    | some m => if m.isEmpty then [("id", a.restaurantId)] else m
    | Option.none => [("id", a.restaurantId)]
  if (restaurantMeta.lookup "id").isSome then restaurantMeta
  else restaurantMeta ++ [("id", a.restaurantId)]

def groupEntity (a : Agg) : AggEntity :=
  ⟨groupAttrs a, a.matchedMenus, a.matchedServices, a.matchedTables,
   a.matchedImages, pyRound4 a.score, a.sources⟩

/-- `restaurant_name` falsy chain (restaurant_agent.py:1083-1088). -/
def groupName (a : Agg) : Val :=
  pyOr (pyGet (groupAttrs a) "restaurantName")
    (pyOr (pyGet (groupAttrs a) "name")
      (pyOr (pyGet (groupAttrs a) "title") (.s "")))

/-- `restaurant_identifier` falsy chain (restaurant_agent.py:1089-1094). -/
def groupIdent (a : Agg) : Val :=
  pyOr (pyGet (groupAttrs a) "id")
    (pyOr (pyGet (groupAttrs a) "restaurantId")
      (pyOr (pyGet (groupAttrs a) "restaurant_id") a.restaurantId))

/-- The `_restaurantName`/`_restaurantId`/`_matchDistance` enrichment applied
to every emitted sub-item (restaurant_agent.py:1096-1123). -/
def enrichMeta (name ident : Val) (md : Metadata) (d : ℚ) : Metadata :=
  pySet (pySet (pySet md "_restaurantName" name) "_restaurantId" ident)
    "_matchDistance" (.q d)

/-- The final dict `_aggregate_search_results` returns
(restaurant_agent.py:1127-1132). -/
structure AggregatedOutput where
  restaurants : List AggEntity
  menus : List Metadata
  services : List Metadata
  tables : List Metadata
  images : List Metadata
deriving DecidableEq

/-- `_aggregate_search_results` (restaurant_agent.py:926-1132).  The final
entity list is stable-sorted by `_matchScore` descending
(`aggregated_restaurants.sort(key=..., reverse=True)`); the flat sub-item
lists are built in group-insertion order, before the sort. -/
def aggregateSearchResults (fetch : Val → Option Metadata)
    (restaurants menus tables images : List SearchItem) : AggregatedOutput :=
  let groups := finalGroups fetch restaurants menus tables images
  { restaurants :=
      (groups.map (fun p => groupEntity p.2)).mergeSort
        (fun a b => decide (b.matchScore ≤ a.matchScore))
    menus := groups.flatMap (fun p => p.2.matchedMenus.map
      (fun it => enrichMeta (groupName p.2) (groupIdent p.2) it.metadata it.distance))
    services := groups.flatMap (fun p => p.2.matchedServices.map
      (fun it => enrichMeta (groupName p.2) (groupIdent p.2) it.metadata it.distance))
    tables := groups.flatMap (fun p => p.2.matchedTables.map
      (fun it => enrichMeta (groupName p.2) (groupIdent p.2) it.metadata it.distance))
    images := groups.flatMap (fun p => p.2.matchedImages.map
      (fun it => enrichMeta (groupName p.2) (groupIdent p.2) it.metadata it.distance)) }

/-! ### `vector_service.py:894-1085` — `semantic_menu_search_with_reasoning` -/

/-- A candidate after the boost loop: the result dict with `distance`
replaced and `score` / `boost_score` added
(vector_service.py:1048-1051). -/
structure RankedHit where
  id : Val
  metadata : Metadata
  distance : ℚ
  score : ℚ
  boostScore : ℚ
deriving DecidableEq

def hotItems : List String :=
  ["cháo", "soup", "canh", "lẩu", "phở", "bún", "miến", "nước dùng", "hot pot"]

/-- The boost computed for one candidate (vector_service.py:959-1046). -/
def boostFor (parse : String → Option Val) (profile : Profile) (md : Metadata) :
    ℚ :=
  let tags := coerceTags parse (pyGetD md "tags" (.l []))
  (if profile.dietProfile.highProtein && tags.contains "high_protein"
    then 15/100 else 0) +
  (if profile.dietProfile.lowCarb && tags.contains "low_carb" then 12/100 else 0) +
  (if profile.dietProfile.lowFat && tags.contains "low_fat" then 12/100 else 0) +
  (if profile.dietProfile.lightMeal && tags.contains "light_meal"
    then 10/100 else 0) +
  (if profile.occasion = "gym" && tags.contains "high_protein" then 10/100 else 0) +
  (if profile.occasion = "sick" && tags.contains "good_when_sick"
    then 15/100 else 0) +
  (if profile.occasion = "comfort" && tags.contains "comfort_food"
    then 10/100 else 0) +
  (if profile.occasion = "celebration" && tags.contains "celebration"
    then 8/100 else 0) +
  (if profile.temperature = "hot" then
    let category := lowerTextField md "category"
    let name := lowerTextField md "name"
    let desc := lowerTextField md "description"
    if hotItems.any (fun itm => pyIn itm category || pyIn itm name || pyIn itm desc)
    then 12/100 else 0
   else 0) +
  (if profile.spiceLevel = "spicy" &&
      (truthy (pyGet md "is_spicy") || tags.contains "spicy") then 8/100
   else if (profile.spiceLevel = "mild" || profile.spiceLevel = "medium") &&
      (tags.contains "non_spicy" || truthy (pyGet md "is_non_spicy")) then 6/100
   else 0) +
  (profile.constraintsText.foldl (fun acc c =>
    let cl := pyLower c
    acc +
    (if pyIn "chay" cl &&
        (tags.contains "vegetarian" || truthy (pyGet md "is_vegetarian"))
      then 10/100 else 0) +
    (if (pyIn "ít dầu" cl || pyIn "ít béo" cl) && tags.contains "low_fat"
      then 8/100 else 0) +
    (if pyIn "không cay" cl &&
        (tags.contains "non_spicy" || truthy (pyGet md "is_non_spicy"))
      then 8/100 else 0)) 0) +
  (if !profile.cuisine.isEmpty then
    let restaurantCuisine := lowerTextField md "restaurant_cuisine"
    let dishCategory := lowerTextField md "category"
    profile.cuisine.foldl (fun acc c =>
      let cl := pyLower c
      acc + (if pyIn cl restaurantCuisine || pyIn cl dishCategory
        then 8/100 else 0)) 0
   else 0) +
  (if profile.isLocalSpecialty && truthy (pyGet md "is_local_specialty")
    then 10/100 else 0)

/-- One iteration of the boost loop: base similarity from the candidate's
distance, boost from the profile, then score / distance rewritten
(vector_service.py:955-1052). -/
def boostHit (parse : String → Option Val) (profile : Profile) (r : SearchItem) :
    RankedHit :=
  let baseScore := max 0 (1 - r.distance.getD 1)
  let boost := boostFor parse profile r.metadata
  let finalScore := min 1 (baseScore + boost)
  ⟨r.id, r.metadata, max 0 (1 - finalScore), finalScore, boost⟩

/-- `semantic_menu_search_with_reasoning` (vector_service.py:894-1085) after
the inner `search_menus` call, whose result list is the `candidates`
parameter: boost every candidate, stable-sort by score descending, then keep
only results with final distance `< distance_threshold` and truncate to
`limit`. -/
def semanticMenuSearchWithReasoning (parse : String → Option Val)
    (profile : Profile) (candidates : List SearchItem) (limit : ℕ)
    (distanceThreshold : ℚ) : List RankedHit :=
  if candidates.isEmpty then []
  else
    let sorted := (candidates.map (boostHit parse profile)).mergeSort
      (fun a b => decide (b.score ≤ a.score))
    (sorted.filter (fun r => r.distance < distanceThreshold)).take limit

/-! ### Observation functions on the aggregation state (for the theorems) -/

/-- The accumulated score of the group keyed `k` (0 when absent). -/
def scoreOf (gs : List (String × Agg)) (k : String) : ℚ :=
  ((gs.lookup k).map Agg.score).getD 0

/-- The matched-menu list of the group keyed `k`. -/
def menusOf (gs : List (String × Agg)) (k : String) : List MatchedItem :=
  ((gs.lookup k).map Agg.matchedMenus).getD []

/-- The matched-service list of the group keyed `k`. -/
def servicesOf (gs : List (String × Agg)) (k : String) : List MatchedItem :=
  ((gs.lookup k).map Agg.matchedServices).getD []

/-- The matched-table list of the group keyed `k`. -/
def tablesOf (gs : List (String × Agg)) (k : String) : List MatchedItem :=
  ((gs.lookup k).map Agg.matchedTables).getD []

/-- The matched-image list of the group keyed `k`. -/
def imagesOf (gs : List (String × Agg)) (k : String) : List ImageItem :=
  ((gs.lookup k).map Agg.matchedImages).getD []

/-- The keys of an association list, in insertion order. -/
def keysOf {α : Type _} (gs : List (String × α)) : List String := gs.map Prod.fst

/-- The aggregation key of a hit routed through
`_extract_restaurant_id_from_metadata` (restaurants / menus / tables). -/
def keyExtract (e : SearchItem) : Option String :=
  (extractRestaurantIdFromMetadata e.metadata).map pyStr

/-- The aggregation key of an `image_url` hit. -/
def keyImage (e : SearchItem) : Option String :=
  match e.metadata.lookup "restaurant_id" with
  | Option.none => Option.none
  | some rid => if rid = Val.none then Option.none else some (pyStr rid)

/-- Score contribution of one extract-keyed hit to the group keyed `k`. -/
def contribExtract (e : SearchItem) (k : String) : ℚ :=
  if keyExtract e = some k then hitScore e else 0

/-- Score contribution of one image hit to the group keyed `k`. -/
def contribImage (e : SearchItem) (k : String) : ℚ :=
  if keyImage e = some k then hitScore e else 0

/-- The sum, over every hit of every collection, of `max(0, 1−distance)`
restricted to the hits whose owner key is `k`. -/
def totalContrib (k : String) (rs ms ts is : List SearchItem) : ℚ :=
  (rs.map (fun e => contribExtract e k)).sum +
  (ms.map (fun e => contribExtract e k)).sum +
  (ts.map (fun e => contribExtract e k)).sum +
  (is.map (fun e => contribImage e k)).sum

/-- Matched-menu items contributed by one menus-collection hit to the group
keyed `k`. -/
def menuContrib (e : SearchItem) (k : String) : List MatchedItem :=
  if keyExtract e = some k then
    let t := detectCollectionItemType e.metadata
    if t = "service" then [] else if t = "table" then []
    else [simplifyMatchedItem e.metadata (e.distance.getD 1) t]
  else []

/-- Matched-service items contributed by one menus-collection hit. -/
def serviceContrib (e : SearchItem) (k : String) : List MatchedItem :=
  if keyExtract e = some k then
    let t := detectCollectionItemType e.metadata
    if t = "service" then [simplifyMatchedItem e.metadata (e.distance.getD 1) t]
    else []
  else []

/-- Matched-table items contributed by one menus-collection hit. -/
def tableContribMenu (e : SearchItem) (k : String) : List MatchedItem :=
  if keyExtract e = some k then
    let t := detectCollectionItemType e.metadata
    if t = "service" then [] else if t = "table" then
      [simplifyMatchedItem e.metadata (e.distance.getD 1) t]
    else []
  else []

/-- Matched-table items contributed by one tables-collection hit. -/
def tableContrib (e : SearchItem) (k : String) : List MatchedItem :=
  if keyExtract e = some k then
    [simplifyMatchedItem e.metadata (e.distance.getD 1) "table"]
  else []

/-- Image items contributed by one image-collection hit. -/
def imageContrib (e : SearchItem) (k : String) : List ImageItem :=
  if keyImage e = some k then [mkImageItem e.metadata (e.distance.getD 1)] else []

/-- The cascade the code actually implements after the two pattern-override
rules: oracle ≥ 0.5, heuristic ≥ 0.5, similarity fallback ≥ 0.6, then the
first non-zero signal in the order embedding label matcher, oracle,
similarity fallback, and finally the heuristic as last resort. -/
def combineCodeRest (icr llm vec pat : IntentResult) : IntentResult :=
  if llm.confidence ≥ 1/2 then llm
  else if pat.confidence ≥ 1/2 then pat
  else if vec.confidence ≥ 3/5 then vec
  else if icr.confidence > 0 then icr
  else if llm.confidence > 0 then llm
  else if vec.confidence > 0 then vec
  else pat

/-- The matched-menu items one menus-collection update appends. -/
def menuAdd (md : Metadata) (d : ℚ) : List MatchedItem :=
  let t := detectCollectionItemType md
  if t = "service" then [] else if t = "table" then []
  else [simplifyMatchedItem md d t]

/-- The matched-service items one menus-collection update appends. -/
def serviceAdd (md : Metadata) (d : ℚ) : List MatchedItem :=
  let t := detectCollectionItemType md
  if t = "service" then [simplifyMatchedItem md d t] else []

/-- The matched-table items one menus-collection update appends. -/
def tableAddMenu (md : Metadata) (d : ℚ) : List MatchedItem :=
  let t := detectCollectionItemType md
  if t = "service" then [] else if t = "table" then [simplifyMatchedItem md d t]
  else []

/-! ## Theorems -/

/-- C2: in the combination stage (embedding-label step did not short-circuit),
an oracle result carrying the catch-all "general_inquiry" intent is overridden
by a specific heuristic match of confidence ≥ 0.5: the combined result is the
heuristic's intent with confidence raised to max(heuristic confidence, 0.7). -/
theorem C2_heuristic_override (icr llm vec pat : IntentResult)
    (hicr : icr.confidence < 8/10) (hl : llm.intent = "general_inquiry")
    (hp : pat.intent ≠ "general_inquiry") (hc : pat.confidence ≥ 1/2) :
    (combineIntentResultsPriority icr llm vec pat).intent = pat.intent ∧
    (combineIntentResultsPriority icr llm vec pat).confidence =
      max pat.confidence (7/10) := by
  unfold combineIntentResultsPriority
  rw [if_neg (by linarith), if_pos ⟨hl, hp, hc⟩]
  exact ⟨rfl, rfl⟩

/-- C2 witness: a heuristic "menu" match at confidence 0.6 against an oracle
"general_inquiry" at 0.4 combines to "menu" at confidence ≥ 0.7. -/
theorem C2_heuristic_override_witness :
    (combineIntentResultsPriority
      ⟨"general_inquiry", 0, Option.none, "intent_collection_no_match"⟩
      ⟨"general_inquiry", 4/10, Option.none, "llm_classification"⟩
      ⟨"general_inquiry", 0, Option.none, "vector_search"⟩
      ⟨"menu", 6/10, Option.none, "pattern_matching"⟩).intent = "menu" ∧
    (combineIntentResultsPriority
      ⟨"general_inquiry", 0, Option.none, "intent_collection_no_match"⟩
      ⟨"general_inquiry", 4/10, Option.none, "llm_classification"⟩
      ⟨"general_inquiry", 0, Option.none, "vector_search"⟩
      ⟨"menu", 6/10, Option.none, "pattern_matching"⟩).confidence ≥ 7/10 := by
  have h := C2_heuristic_override
    ⟨"general_inquiry", 0, Option.none, "intent_collection_no_match"⟩
    ⟨"general_inquiry", 4/10, Option.none, "llm_classification"⟩
    ⟨"general_inquiry", 0, Option.none, "vector_search"⟩
    ⟨"menu", 6/10, Option.none, "pattern_matching"⟩
    (by norm_num) rfl (by decide) (by norm_num)
  refine ⟨h.1, ?_⟩
  rw [h.2]
  simp

/-- C7 counterexample: the embedding-label step did not short-circuit
(confidence 0 < 0.8), the general-intent heuristic-override does not apply
(the oracle intent is the specific "menu_inquiry"), and the oracle confidence
is 0.6 ≥ 0.5 — yet the combined result is the heuristic "booking", not the
oracle result, because of the second override that fires whenever the oracle
confidence is below 0.7 and the heuristic matched a specific intent with
confidence ≥ 0.5. -/
theorem C7_counterexample :
    let icr : IntentResult :=
      ⟨"general_inquiry", 0, Option.none, "intent_collection_no_match"⟩
    let llm : IntentResult := ⟨"menu_inquiry", 6/10, Option.none, "llm_classification"⟩
    let vec : IntentResult := ⟨"general_inquiry", 0, Option.none, "vector_search"⟩
    let pat : IntentResult := ⟨"booking", 1/2, Option.none, "pattern_matching"⟩
    icr.confidence < 8/10 ∧ ¬(llm.intent = "general_inquiry") ∧
    llm.confidence ≥ 1/2 ∧
    (combineIntentResultsPriority icr llm vec pat).intent = "booking" ∧
    (combineIntentResultsPriority icr llm vec pat).intent ≠ llm.intent := by
  refine ⟨by norm_num, by decide, by norm_num, ?_, ?_⟩ <;>
    · norm_num [combineIntentResultsPriority]
      decide

/-- C7 (amended): after the two pattern-override rules — the general-intent
override and the low-oracle-confidence override — the selection is: oracle if
confidence ≥ 0.5, else heuristic if ≥ 0.5, else similarity fallback if ≥ 0.6,
else the first non-zero-confidence signal in the order embedding label
matcher, oracle, similarity fallback, with the heuristic result as the final
fallback. -/
theorem C7_amended_cascade (icr llm vec pat : IntentResult)
    (hicr : icr.confidence < 8/10)
    (hov1 : ¬(llm.intent = "general_inquiry" ∧ pat.intent ≠ "general_inquiry" ∧
      pat.confidence ≥ 1/2))
    (hov2 : ¬(llm.confidence < 7/10 ∧ pat.intent ≠ "general_inquiry" ∧
      pat.confidence ≥ 1/2)) :
    combineIntentResultsPriority icr llm vec pat = combineCodeRest icr llm vec pat := by
  unfold combineIntentResultsPriority combineCodeRest
  rw [if_neg (by linarith), if_neg hov1, if_neg hov2]

/-- C7 amended-claim witness: with every provider below its threshold except
a weak embedding-label signal, the weakest-signal order picks the embedding
label matcher. -/
theorem C7_amended_cascade_witness :
    (combineIntentResultsPriority
      ⟨"restaurant_search", 3/10, Option.none, "intent_collection"⟩
      ⟨"general_inquiry", 2/10, Option.none, "llm_classification"⟩
      ⟨"general_inquiry", 1/10, Option.none, "vector_search"⟩
      ⟨"general_inquiry", 4/10, Option.none, "pattern_matching"⟩).intent =
      "restaurant_search" := by
  have h := C7_amended_cascade
    ⟨"restaurant_search", 3/10, Option.none, "intent_collection"⟩
    ⟨"general_inquiry", 2/10, Option.none, "llm_classification"⟩
    ⟨"general_inquiry", 1/10, Option.none, "vector_search"⟩
    ⟨"general_inquiry", 4/10, Option.none, "pattern_matching"⟩
    (by norm_num) (by simp) (by simp)
  rw [h]
  norm_num [combineCodeRest]

/-- C3: when the best intent-embedding match has distance < 0.4, the label
classifier does report that label's intent at confidence
min(0.98, (1−distance)×0.95) — but when that confidence is ≥ 0.8 the cascade
does NOT return it: the high-confidence branch of
`recognize_intent_with_context` falls through to the combine call with
`llm_intent`/`vector_intent` unbound, raising `UnboundLocalError`, and the
outer handler returns the pattern fallback instead. -/
theorem C3_short_circuit_broken (defs : String → Option String)
    (hits : List IntentHit) (llm vec pat : IntentResult)
    (verify : IntentResult → VerifyResult) (h : IntentHit) (rest : List IntentHit)
    (hh : hits = h :: rest) (hd : h.distance < 2/5)
    (hc : min ((1 - h.distance) * (95/100)) (98/100) ≥ 8/10) :
    (vectorIntentClassify defs hits).intent = h.intentLabel.getD "general_inquiry" ∧
    (vectorIntentClassify defs hits).confidence =
      min ((1 - h.distance) * (95/100)) (98/100) ∧
    recognizeIntentWithContext defs hits llm vec pat verify =
      { pat with method := "pattern_fallback_error" } := by
  subst hh
  have hcls : vectorIntentClassify defs (h :: rest) =
      ⟨h.intentLabel.getD "general_inquiry",
       min ((1 - h.distance) * (95/100)) (98/100),
       pyOrStr h.apiFun (defs (h.intentLabel.getD "general_inquiry")),
       "intent_collection"⟩ := by
    simp only [vectorIntentClassify]
    rw [if_pos hd]
  refine ⟨by rw [hcls], by rw [hcls], ?_⟩
  unfold recognizeIntentWithContext
  simp only [hcls]
  rw [if_pos hc]

/-- C3 witness: a best label match at distance 0.1 yields confidence
0.855 ≥ 0.8, and the pipeline returns the pattern fallback with
`method = "pattern_fallback_error"` instead of the embedding-label result. -/
theorem C3_short_circuit_broken_witness :
    (vectorIntentClassify (fun _ => Option.none)
      [⟨1/10, some "menu_inquiry", Option.none⟩]).intent = "menu_inquiry" ∧
    (vectorIntentClassify (fun _ => Option.none)
      [⟨1/10, some "menu_inquiry", Option.none⟩]).confidence = 171/200 ∧
    recognizeIntentWithContext (fun _ => Option.none)
      [⟨1/10, some "menu_inquiry", Option.none⟩]
      ⟨"menu_inquiry", 9/10, Option.none, "llm_classification"⟩
      ⟨"general_inquiry", 1/10, Option.none, "vector_search"⟩
      ⟨"general_inquiry", 3/10, Option.none, "pattern_matching"⟩
      (fun _ => ⟨true, Option.none, 0⟩) =
      ⟨"general_inquiry", 3/10, Option.none, "pattern_fallback_error"⟩ := by
  have h := C3_short_circuit_broken (fun _ => Option.none)
    [⟨1/10, some "menu_inquiry", Option.none⟩]
    ⟨"menu_inquiry", 9/10, Option.none, "llm_classification"⟩
    ⟨"general_inquiry", 1/10, Option.none, "vector_search"⟩
    ⟨"general_inquiry", 3/10, Option.none, "pattern_matching"⟩
    (fun _ => ⟨true, Option.none, 0⟩)
    ⟨1/10, some "menu_inquiry", Option.none⟩ [] rfl (by norm_num)
    (by rw [min_def]; norm_num)
  refine ⟨h.1, ?_, h.2.2⟩
  rw [h.2.1, min_def]
  norm_num

/-- C9 counterexample: on profile parse failure for the query "Tôi bị sẹo,
nên ăn gì?", the fallback profile's summary equals the raw query, the
scar-condition detector fires on that summary, and the derived exclusion set
is NOT empty — it contains the scar bundle ("beef", …), so constraint
filtering does occur. -/
theorem C9_counterexample :
    (extractForbiddenTags
      (universalQueryReasoning Option.none "Tôi bị sẹo, nên ăn gì?")).contains
      "beef" = true ∧
    extractForbiddenTags
      (universalQueryReasoning Option.none "Tôi bị sẹo, nên ăn gì?") ≠ [] := by
  constructor
  · decide
  · decide

/-- C9 (amended): on profile parse failure the core substitutes the
all-default profile whose summary and search_query equal the raw query text,
and the derived exclusion set is empty — provided the raw query text itself
triggers none of the condition detectors (scar/surgery, vegetarian, gout),
since the fallback summary is the query text itself. -/
theorem C9_parse_failure_fallback (msg : String)
    (hscar : isScarCondition (pyLower msg) "" = false)
    (hveg : isVegetarianCondition (pyLower msg) "" = false)
    (hgout : isGoutCondition (pyLower msg) "" = false) :
    universalQueryReasoning Option.none msg =
      { defaultProfile with summary := msg, searchQuery := msg } ∧
    extractForbiddenTags (universalQueryReasoning Option.none msg) = [] := by
  refine ⟨rfl, ?_⟩
  show extractForbiddenTags
    { defaultProfile with summary := msg, searchQuery := msg } = []
  have hstr : pyLower (pyJoin " " ([] : List String)) = "" := rfl
  simp only [extractForbiddenTags, defaultProfile, hstr, List.foldl_nil,
    hscar, hveg, hgout, if_neg, Bool.false_eq_true, if_false, Bool.not_false,
    Bool.and_self, if_true, List.dedup_nil]

/-- C9 witness: a query without condition keywords yields the defaulted
fallback profile and an empty exclusion set. -/
theorem C9_parse_failure_fallback_witness :
    universalQueryReasoning Option.none "quán nào ngon gần đây?" =
      { defaultProfile with summary := "quán nào ngon gần đây?",
                            searchQuery := "quán nào ngon gần đây?" } ∧
    extractForbiddenTags
      (universalQueryReasoning Option.none "quán nào ngon gần đây?") = [] :=
  C9_parse_failure_fallback "quán nào ngon gần đây?"
    (by decide) (by decide) (by decide)

/-- C5: the constraint filter rewrites exactly the "menus" collection —
an item stays iff no exclusion tag matches it — and leaves every other
collection untouched; an item is removed iff some exclusion tag matches by
ingredient-tag exact match, lifestyle/health-tag exact match, or substring
match on name/description/ingredients; scenario: with exclusions
{"beef","seafood"} a submenu item tagged ingredient_tags=["beef"] is dropped
while a primary entity with the same words in its description is kept. -/
theorem C5_constraint_filter :
    (∀ (parse : String → Option Val) (srs : List (String × List SearchItem))
        (forbidden : List String),
      filterByForbiddenTags parse srs forbidden =
        srs.map (fun p =>
          if p.1 = "menus" then
            (p.1, p.2.filter (fun it => !itemHasForbidden parse forbidden it.metadata))
          else p)) ∧
    (∀ (parse : String → Option Val) (forbidden : List String)
        (items : List SearchItem) (it : SearchItem),
      it ∈ items.filter (fun i => !itemHasForbidden parse forbidden i.metadata) ↔
        it ∈ items ∧
        ¬∃ f ∈ forbidden,
          tagMatch (pyLower f)
            (coerceTags parse (pyGetD it.metadata "ingredient_tags" (.l []))) = true ∨
          tagMatch (pyLower f)
            (coerceTags parse (pyGetD it.metadata "tags" (.l []))) = true ∨
          (pyIn (pyLower f) (lowerTextField it.metadata "name") = true ∨
           pyIn (pyLower f) (lowerTextField it.metadata "description") = true ∨
           pyIn (pyLower f) (coerceIngredients (pyGetD it.metadata "ingredients" (.s ""))) = true)) ∧
    filterByForbiddenTags (fun _ => Option.none)
      [("restaurants",
        [⟨.i 2, [("description", .s "Beef and seafood specialties")], Option.none⟩]),
       ("menus",
        [⟨.i 1, [("name", .s "Bò lúc lắc"), ("ingredient_tags", .l ["beef"])],
          Option.none⟩])]
      ["beef", "seafood"] =
      [("restaurants",
        [⟨.i 2, [("description", .s "Beef and seafood specialties")], Option.none⟩]),
       ("menus", [])] := by
  refine ⟨?_, ?_, by decide⟩
  · intro parse srs forbidden
    unfold filterByForbiddenTags
    split_ifs with h
    · have h0 : forbidden = [] := by
        cases forbidden with
        | nil => rfl
        | cons a l => simp at h
      subst h0
      have hempty : ∀ it : SearchItem,
          itemHasForbidden parse [] it.metadata = false := fun _ => rfl
      simp [hempty]
    · rfl
  · intro parse forbidden items it
    have key : itemHasForbidden parse forbidden it.metadata = true ↔
        ∃ f ∈ forbidden,
          tagMatch (pyLower f)
            (coerceTags parse (pyGetD it.metadata "ingredient_tags" (.l []))) = true ∨
          tagMatch (pyLower f)
            (coerceTags parse (pyGetD it.metadata "tags" (.l []))) = true ∨
          (pyIn (pyLower f) (lowerTextField it.metadata "name") = true ∨
           pyIn (pyLower f) (lowerTextField it.metadata "description") = true ∨
           pyIn (pyLower f)
             (coerceIngredients (pyGetD it.metadata "ingredients" (.s ""))) = true) := by
      simp only [itemHasForbidden, List.any_eq_true, Bool.or_eq_true]
      constructor
      · rintro ⟨f, hf, h⟩
        exact ⟨f, hf, by tauto⟩
      · rintro ⟨f, hf, h⟩
        exact ⟨f, hf, by tauto⟩
    rw [List.mem_filter, Bool.not_eq_true', Bool.eq_false_iff, Ne, key]

/-- C4 counterexample: the reasoning re-ranker does remove items.  A single
candidate at distance 0.9 with a no-boost profile keeps final distance 0.9,
which fails the final `distance < threshold` filter (threshold 0.6), so the
output id set is empty while the input id set is {1}. -/
theorem C4_counterexample :
    (semanticMenuSearchWithReasoning (fun _ => Option.none) defaultProfile
      [⟨.i 1, [], some (9/10)⟩] 10 (3/5)).map RankedHit.id = [] ∧
    ([(⟨.i 1, [], some (9/10)⟩ : SearchItem)]).map SearchItem.id = [.i 1] := by
  refine ⟨?_, rfl⟩
  have hdist : (boostHit (fun _ => Option.none) defaultProfile
      ⟨.i 1, [], some (9/10)⟩).distance = 9/10 := by
    simp only [boostHit, boostFor, defaultProfile]
    norm_num [coerceTags, pyGetD, pyGet, truthy]
    rw [if_neg (by decide)]
    norm_num
  unfold semanticMenuSearchWithReasoning
  rw [if_neg (by simp)]
  simp only [List.map_cons, List.map_nil, List.mergeSort_singleton]
  rw [List.filter_cons]
  norm_num [hdist]

/-- C4 (amended): the boost-and-resort stage preserves the multiset of item
ids, and every returned item id comes from the candidate list — but the
function then drops boosted items whose final distance is not below the
distance threshold and truncates to `limit`, so items can be removed. -/
theorem C4_rerank_ids (parse : String → Option Val) (profile : Profile)
    (cands : List SearchItem) (limit : ℕ) (thr : ℚ) :
    (((cands.map (boostHit parse profile)).mergeSort
        (fun a b => decide (b.score ≤ a.score))).map RankedHit.id).Perm
      (cands.map SearchItem.id) ∧
    ∀ r ∈ semanticMenuSearchWithReasoning parse profile cands limit thr,
      r.id ∈ cands.map SearchItem.id := by
  have hids : ((cands.map (boostHit parse profile)).mergeSort
      (fun a b => decide (b.score ≤ a.score))).map RankedHit.id =
      ((cands.map (boostHit parse profile)).mergeSort
      (fun a b => decide (b.score ≤ a.score))).map RankedHit.id := rfl
  have hperm : ((cands.map (boostHit parse profile)).mergeSort
      (fun a b => decide (b.score ≤ a.score))).Perm
      (cands.map (boostHit parse profile)) :=
    List.mergeSort_perm _ _
  have hmap : (cands.map (boostHit parse profile)).map RankedHit.id =
      cands.map SearchItem.id := by
    rw [List.map_map]; rfl
  refine ⟨(hperm.map RankedHit.id).trans (hmap ▸ List.Perm.refl _), ?_⟩
  intro r hr
  unfold semanticMenuSearchWithReasoning at hr
  split_ifs at hr with h
  · simp at hr
  · have h1 : r ∈ ((cands.map (boostHit parse profile)).mergeSort
        (fun a b => decide (b.score ≤ a.score))).filter
        (fun x => decide (x.distance < thr)) := List.mem_of_mem_take hr
    have h2 := List.mem_of_mem_filter h1
    have h3 : r.id ∈ ((cands.map (boostHit parse profile)).mergeSort
        (fun a b => decide (b.score ≤ a.score))).map RankedHit.id :=
      List.mem_map_of_mem RankedHit.id h2
    rw [(hperm.map RankedHit.id).mem_iff, hmap] at h3
    exact h3

/-! ### Association-list lemmas -/

theorem lookup_nil {α : Type _} (k : String) :
    List.lookup k ([] : List (String × α)) = Option.none := rfl

theorem lookup_cons_self {α : Type _} (k : String) (a : α) (t : List (String × α)) :
    List.lookup k ((k, a) :: t) = some a := by
  simp [List.lookup]

theorem lookup_cons_ne {α : Type _} {k k0 : String} (a0 : α) (t : List (String × α))
    (h : ¬(k = k0)) : List.lookup k ((k0, a0) :: t) = List.lookup k t := by
  simp [List.lookup, beq_false_of_ne h]

theorem lookup_assocSet {α : Type _} (gs : List (String × α)) (k : String) (a : α)
    (k' : String) :
    (assocSet gs k a).lookup k' = if k' = k then some a else gs.lookup k' := by
  induction gs with
  | nil =>
      by_cases h : k' = k
      · subst h
        rw [assocSet, lookup_cons_self, if_pos rfl]
      · rw [assocSet, lookup_cons_ne _ _ h, if_neg h]
  | cons p t ih =>
      obtain ⟨k0, a0⟩ := p
      by_cases h0 : k0 = k
      · subst h0
        by_cases h1 : k' = k0
        · subst h1
          rw [assocSet, if_pos rfl, lookup_cons_self, if_pos rfl]
        · rw [assocSet, if_pos rfl, lookup_cons_ne _ _ h1, if_neg h1,
            lookup_cons_ne _ _ h1]
      · by_cases h1 : k' = k0
        · subst h1
          have h2 : ¬(k' = k) := fun hcon => h0 (by rw [hcon])
          rw [assocSet, if_neg h0, lookup_cons_self, if_neg h2, lookup_cons_self]
        · rw [assocSet, if_neg h0, lookup_cons_ne _ _ h1, ih,
            lookup_cons_ne _ _ h1]

theorem lookup_applyAtKey (gs : List (String × Agg)) (k : String)
    (f : Option Agg → Agg) (k' : String) :
    (applyAtKey gs k f).lookup k' =
      if k' = k then some (f (gs.lookup k)) else gs.lookup k' := by
  unfold applyAtKey
  exact lookup_assocSet gs k (f (gs.lookup k)) k'

theorem keysOf_nil {α : Type _} : keysOf ([] : List (String × α)) = [] := rfl

theorem keysOf_cons {α : Type _} (p : String × α) (t : List (String × α)) :
    keysOf (p :: t) = p.1 :: keysOf t := rfl

theorem keysOf_assocSet {α : Type _} (gs : List (String × α)) (k : String) (a : α) :
    keysOf (assocSet gs k a) =
      if (gs.lookup k).isSome then keysOf gs else keysOf gs ++ [k] := by
  induction gs with
  | nil => simp [assocSet, keysOf, lookup_nil]
  | cons p t ih =>
      obtain ⟨k0, a0⟩ := p
      by_cases h0 : k0 = k
      · subst h0
        rw [assocSet, if_pos rfl, lookup_cons_self]
        simp [keysOf]
      · have hne : ¬(k = k0) := fun hcon => h0 (by rw [hcon])
        rw [assocSet, if_neg h0, keysOf_cons, keysOf_cons, ih,
          lookup_cons_ne _ _ hne]
        by_cases hlk : (List.lookup k t).isSome = true
        · rw [if_pos hlk, if_pos hlk]
        · rw [if_neg hlk, if_neg hlk]
          rfl

theorem not_mem_keys_of_lookup_none {α : Type _} (gs : List (String × α))
    (k : String) (hnone : gs.lookup k = Option.none) : k ∉ keysOf gs := by
  induction gs with
  | nil => simp [keysOf]
  | cons p t ih =>
      obtain ⟨k0, a0⟩ := p
      by_cases hk : k = k0
      · subst hk
        rw [lookup_cons_self] at hnone
        exact absurd hnone (by simp)
      · rw [lookup_cons_ne _ _ hk] at hnone
        rw [keysOf_cons, List.mem_cons]
        push_neg
        exact ⟨hk, ih hnone⟩

theorem nodup_keys_assocSet {α : Type _} (gs : List (String × α)) (k : String)
    (a : α) (h : (keysOf gs).Nodup) : (keysOf (assocSet gs k a)).Nodup := by
  rw [keysOf_assocSet]
  split
  · exact h
  · rename_i hnone
    have hnone' : gs.lookup k = Option.none := by
      cases hlk : gs.lookup k with
      | none => rfl
      | some b => rw [hlk] at hnone; simp at hnone
    refine List.Nodup.append h (List.nodup_singleton k) ?_
    intro x hx hxk
    rw [List.mem_singleton] at hxk
    subst hxk
    exact not_mem_keys_of_lookup_none gs x hnone' hx

theorem lookup_eq_of_mem {α : Type _} (gs : List (String × α))
    (h : (keysOf gs).Nodup) (k : String) (a : α) (hmem : (k, a) ∈ gs) :
    gs.lookup k = some a := by
  induction gs with
  | nil => simp at hmem
  | cons p t ih =>
      obtain ⟨k0, a0⟩ := p
      have hnd : (k0 :: keysOf t).Nodup := by simpa [keysOf] using h
      rw [List.mem_cons] at hmem
      rcases hmem with hmem | hmem
      · obtain ⟨hk, ha⟩ := Prod.mk.injEq .. ▸ hmem
        subst hk
        subst ha
        exact lookup_cons_self k a t
      · have hkmem : k ∈ keysOf t := by
          have h3 := List.mem_map_of_mem Prod.fst hmem
          exact h3
        have hk0 : k0 ∉ keysOf t := (List.nodup_cons.mp hnd).1
        have hne : ¬(k = k0) := fun hcon => hk0 (hcon ▸ hkmem)
        rw [lookup_cons_ne _ _ hne]
        exact ih (List.nodup_cons.mp hnd).2 hmem

/-! ### Score evolution through the aggregation loops -/

theorem score_updRestaurant (rid : Val) (md : Metadata) (sc : ℚ)
    (o : Option Agg) :
    (updRestaurant rid md sc o).score = ((o.map Agg.score).getD 0) + sc := by
  cases o with
  | none => rfl
  | some a0 =>
      simp only [updRestaurant]
      split <;> rfl

theorem score_updMenu (rid : Val) (md : Metadata) (d sc : ℚ) (o : Option Agg) :
    (updMenu rid md d sc o).score = ((o.map Agg.score).getD 0) + sc := by
  cases o <;>
    · simp only [updMenu]
      split
      · rfl
      · split <;> rfl

theorem score_updTable (rid : Val) (md : Metadata) (d sc : ℚ) (o : Option Agg) :
    (updTable rid md d sc o).score = ((o.map Agg.score).getD 0) + sc := by
  cases o <;> rfl

theorem score_updImage (rid : Val) (md : Metadata) (d sc : ℚ) (o : Option Agg) :
    (updImage rid md d sc o).score = ((o.map Agg.score).getD 0) + sc := by
  cases o <;> rfl

theorem scoreOf_applyAtKey (gs : List (String × Agg)) (k : String)
    (f : Option Agg → Agg) (sc : ℚ)
    (hf : ∀ o, (f o).score = ((o.map Agg.score).getD 0) + sc) (k' : String) :
    scoreOf (applyAtKey gs k f) k' = scoreOf gs k' + (if k' = k then sc else 0) := by
  unfold scoreOf
  rw [lookup_applyAtKey]
  by_cases hk : k' = k
  · simp [hk, hf]
  · simp [hk]

theorem scoreOf_stepRestaurant (st : AggSt) (e : SearchItem) (k : String) :
    scoreOf (stepRestaurant st e).groups k =
      scoreOf st.groups k + contribExtract e k := by
  unfold stepRestaurant
  cases h : extractRestaurantIdFromMetadata e.metadata with
  | none => simp [contribExtract, keyExtract, h]
  | some rid =>
      simp only
      rw [scoreOf_applyAtKey _ _ _ (hitScore e)
        (score_updRestaurant rid e.metadata (hitScore e))]
      simp [contribExtract, keyExtract, h, eq_comm]

theorem scoreOf_stepMenu (st : AggSt) (e : SearchItem) (k : String) :
    scoreOf (stepMenu st e).groups k =
      scoreOf st.groups k + contribExtract e k := by
  unfold stepMenu
  cases h : extractRestaurantIdFromMetadata e.metadata with
  | none => simp [contribExtract, keyExtract, h]
  | some rid =>
      simp only
      rw [scoreOf_applyAtKey _ _ _ (hitScore e)
        (score_updMenu rid e.metadata (e.distance.getD 1) (hitScore e))]
      simp [contribExtract, keyExtract, h, eq_comm]

theorem scoreOf_stepTable (st : AggSt) (e : SearchItem) (k : String) :
    scoreOf (stepTable st e).groups k =
      scoreOf st.groups k + contribExtract e k := by
  unfold stepTable
  cases h : extractRestaurantIdFromMetadata e.metadata with
  | none => simp [contribExtract, keyExtract, h]
  | some rid =>
      simp only
      rw [scoreOf_applyAtKey _ _ _ (hitScore e)
        (score_updTable rid e.metadata (e.distance.getD 1) (hitScore e))]
      simp [contribExtract, keyExtract, h, eq_comm]

theorem scoreOf_stepImage (st : AggSt) (e : SearchItem) (k : String) :
    scoreOf (stepImage st e).groups k =
      scoreOf st.groups k + contribImage e k := by
  unfold stepImage
  cases h : e.metadata.lookup "restaurant_id" with
  | none => simp [contribImage, keyImage, h]
  | some rid =>
      simp only
      by_cases hn : rid = Val.none
      · subst hn
        simp [contribImage, keyImage, h]
      · rw [if_neg hn]
        simp only
        rw [scoreOf_applyAtKey _ _ _ (hitScore e)
          (score_updImage rid e.metadata (e.distance.getD 1) (hitScore e))]
        simp [contribImage, keyImage, h, hn, eq_comm]

theorem scoreOf_foldl (step : AggSt → SearchItem → AggSt)
    (contrib : SearchItem → String → ℚ)
    (hstep : ∀ st e k, scoreOf (step st e).groups k =
      scoreOf st.groups k + contrib e k)
    (es : List SearchItem) (st : AggSt) (k : String) :
    scoreOf ((es.foldl step st).groups) k =
      scoreOf st.groups k + ((es.map (fun e => contrib e k)).sum) := by
  induction es generalizing st with
  | nil => simp
  | cons e tl ih =>
      rw [List.foldl_cons, ih, hstep]
      simp [add_assoc]

theorem scoreOf_backfillStep (fetch : Val → Option Metadata)
    (gs : List (String × Agg)) (v : Val) (k : String) :
    scoreOf (backfillStep fetch gs v) k = scoreOf gs k := by
  unfold backfillStep
  cases hf : fetch v with
  | none => rfl
  | some payload =>
      simp only
      cases hl : gs.lookup (pyStr v) with
      | none => rfl
      | some a =>
          simp only
          by_cases hp : payload ≠ ([] : Metadata)
          · rw [if_pos hp]
            unfold scoreOf
            rw [lookup_assocSet]
            by_cases hk : k = pyStr v
            · subst hk
              rw [if_pos rfl, hl]
              rfl
            · rw [if_neg hk]
          · rw [if_neg hp]

theorem scoreOf_backfill (fetch : Val → Option Metadata) (st : AggSt)
    (k : String) : scoreOf (backfill fetch st) k = scoreOf st.groups k := by
  unfold backfill
  generalize st.groups = gs
  induction st.missing generalizing gs with
  | nil => rfl
  | cons v tl ih =>
      rw [List.foldl_cons, ih, scoreOf_backfillStep]

/-- The accumulated score of every final group equals the total
`max(0, 1−distance)` contribution of the hits keyed to it, across all four
collections. -/
theorem scoreOf_finalGroups (fetch : Val → Option Metadata)
    (rs ms ts is : List SearchItem) (k : String) :
    scoreOf (finalGroups fetch rs ms ts is) k = totalContrib k rs ms ts is := by
  unfold finalGroups totalContrib
  rw [scoreOf_backfill,
    scoreOf_foldl stepImage contribImage scoreOf_stepImage,
    scoreOf_foldl stepTable contribExtract scoreOf_stepTable,
    scoreOf_foldl stepMenu contribExtract scoreOf_stepMenu,
    scoreOf_foldl stepRestaurant contribExtract scoreOf_stepRestaurant]
  show 0 + _ + _ + _ + _ = _
  ring

/-! ### Key-set evolution through the aggregation loops -/

theorem isSome_lookup_applyAtKey (gs : List (String × Agg)) (k : String)
    (f : Option Agg → Agg) (k' : String) :
    ((applyAtKey gs k f).lookup k').isSome = true ↔
      k' = k ∨ (gs.lookup k').isSome = true := by
  rw [lookup_applyAtKey]
  by_cases hk : k' = k <;> simp [hk]

theorem hasKey_stepRestaurant (st : AggSt) (e : SearchItem) (k : String) :
    ((stepRestaurant st e).groups.lookup k).isSome = true ↔
      keyExtract e = some k ∨ (st.groups.lookup k).isSome = true := by
  unfold stepRestaurant
  cases h : extractRestaurantIdFromMetadata e.metadata with
  | none => simp [keyExtract, h]
  | some rid =>
      simp only
      rw [isSome_lookup_applyAtKey]
      simp only [keyExtract, h, Option.map_some', Option.some.injEq]
      rw [eq_comm]

theorem hasKey_stepMenu (st : AggSt) (e : SearchItem) (k : String) :
    ((stepMenu st e).groups.lookup k).isSome = true ↔
      keyExtract e = some k ∨ (st.groups.lookup k).isSome = true := by
  unfold stepMenu
  cases h : extractRestaurantIdFromMetadata e.metadata with
  | none => simp [keyExtract, h]
  | some rid =>
      simp only
      rw [isSome_lookup_applyAtKey]
      simp only [keyExtract, h, Option.map_some', Option.some.injEq]
      rw [eq_comm]

theorem hasKey_stepTable (st : AggSt) (e : SearchItem) (k : String) :
    ((stepTable st e).groups.lookup k).isSome = true ↔
      keyExtract e = some k ∨ (st.groups.lookup k).isSome = true := by
  unfold stepTable
  cases h : extractRestaurantIdFromMetadata e.metadata with
  | none => simp [keyExtract, h]
  | some rid =>
      simp only
      rw [isSome_lookup_applyAtKey]
      simp only [keyExtract, h, Option.map_some', Option.some.injEq]
      rw [eq_comm]

theorem hasKey_stepImage (st : AggSt) (e : SearchItem) (k : String) :
    ((stepImage st e).groups.lookup k).isSome = true ↔
      keyImage e = some k ∨ (st.groups.lookup k).isSome = true := by
  unfold stepImage
  cases h : e.metadata.lookup "restaurant_id" with
  | none => simp [keyImage, h]
  | some rid =>
      simp only
      by_cases hn : rid = Val.none
      · subst hn
        simp [keyImage, h]
      · rw [if_neg hn]
        simp only
        rw [isSome_lookup_applyAtKey]
        simp only [keyImage, h, if_neg hn, Option.some.injEq]
        rw [eq_comm]

theorem hasKey_foldl (step : AggSt → SearchItem → AggSt)
    (key : SearchItem → Option String)
    (hstep : ∀ st e k, ((step st e).groups.lookup k).isSome = true ↔
      key e = some k ∨ (st.groups.lookup k).isSome = true)
    (es : List SearchItem) (st : AggSt) (k : String) :
    (((es.foldl step st).groups).lookup k).isSome = true ↔
      (∃ e ∈ es, key e = some k) ∨ (st.groups.lookup k).isSome = true := by
  induction es generalizing st with
  | nil => simp
  | cons e tl ih =>
      rw [List.foldl_cons, ih, hstep, List.exists_mem_cons_iff]
      constructor
      · rintro (⟨x, hx, hkx⟩ | h1 | h2)
        · exact Or.inl (Or.inr ⟨x, hx, hkx⟩)
        · exact Or.inl (Or.inl h1)
        · exact Or.inr h2
      · rintro ((h1 | ⟨x, hx, hkx⟩) | h2)
        · exact Or.inr (Or.inl h1)
        · exact Or.inl ⟨x, hx, hkx⟩
        · exact Or.inr (Or.inr h2)

theorem hasKey_backfillStep (fetch : Val → Option Metadata)
    (gs : List (String × Agg)) (v : Val) (k : String) :
    ((backfillStep fetch gs v).lookup k).isSome = (gs.lookup k).isSome := by
  unfold backfillStep
  cases hf : fetch v with
  | none => rfl
  | some payload =>
      simp only
      cases hl : gs.lookup (pyStr v) with
      | none => rfl
      | some a =>
          simp only
          by_cases hp : payload ≠ ([] : Metadata)
          · rw [if_pos hp, lookup_assocSet]
            by_cases hk : k = pyStr v
            · subst hk
              rw [if_pos rfl, hl]
              rfl
            · rw [if_neg hk]
          · rw [if_neg hp]

theorem hasKey_backfill (fetch : Val → Option Metadata) (st : AggSt)
    (k : String) :
    ((backfill fetch st).lookup k).isSome = (st.groups.lookup k).isSome := by
  unfold backfill
  generalize st.groups = gs
  induction st.missing generalizing gs with
  | nil => rfl
  | cons v tl ih =>
      rw [List.foldl_cons, ih, hasKey_backfillStep]

/-- A key is present among the final groups exactly when some hit of some
collection carries it. -/
theorem hasKey_finalGroups (fetch : Val → Option Metadata)
    (rs ms ts is : List SearchItem) (k : String) :
    (((finalGroups fetch rs ms ts is).lookup k).isSome = true) ↔
      ((∃ e ∈ rs, keyExtract e = some k) ∨ (∃ e ∈ ms, keyExtract e = some k) ∨
       (∃ e ∈ ts, keyExtract e = some k) ∨ (∃ e ∈ is, keyImage e = some k)) := by
  unfold finalGroups
  rw [hasKey_backfill,
    hasKey_foldl stepImage keyImage hasKey_stepImage,
    hasKey_foldl stepTable keyExtract hasKey_stepTable,
    hasKey_foldl stepMenu keyExtract hasKey_stepMenu,
    hasKey_foldl stepRestaurant keyExtract hasKey_stepRestaurant]
  constructor
  · rintro (h | h | h | h | h)
    · exact Or.inr (Or.inr (Or.inr h))
    · exact Or.inr (Or.inr (Or.inl h))
    · exact Or.inr (Or.inl h)
    · exact Or.inl h
    · rw [lookup_nil] at h
      exact absurd h (by simp)
  · rintro (h | h | h | h)
    · exact Or.inr (Or.inr (Or.inr (Or.inl h)))
    · exact Or.inr (Or.inr (Or.inl h))
    · exact Or.inr (Or.inl h)
    · exact Or.inl h

theorem nodup_keys_applyAtKey (gs : List (String × Agg)) (k : String)
    (f : Option Agg → Agg) (h : (keysOf gs).Nodup) :
    (keysOf (applyAtKey gs k f)).Nodup := by
  unfold applyAtKey
  exact nodup_keys_assocSet gs k _ h

theorem nodup_keys_stepRestaurant (st : AggSt) (e : SearchItem)
    (h : (keysOf st.groups).Nodup) :
    (keysOf (stepRestaurant st e).groups).Nodup := by
  unfold stepRestaurant
  cases hx : extractRestaurantIdFromMetadata e.metadata with
  | none => exact h
  | some rid => exact nodup_keys_applyAtKey _ _ _ h

theorem nodup_keys_stepMenu (st : AggSt) (e : SearchItem)
    (h : (keysOf st.groups).Nodup) :
    (keysOf (stepMenu st e).groups).Nodup := by
  unfold stepMenu
  cases hx : extractRestaurantIdFromMetadata e.metadata with
  | none => exact h
  | some rid => exact nodup_keys_applyAtKey _ _ _ h

theorem nodup_keys_stepTable (st : AggSt) (e : SearchItem)
    (h : (keysOf st.groups).Nodup) :
    (keysOf (stepTable st e).groups).Nodup := by
  unfold stepTable
  cases hx : extractRestaurantIdFromMetadata e.metadata with
  | none => exact h
  | some rid => exact nodup_keys_applyAtKey _ _ _ h

theorem nodup_keys_stepImage (st : AggSt) (e : SearchItem)
    (h : (keysOf st.groups).Nodup) :
    (keysOf (stepImage st e).groups).Nodup := by
  unfold stepImage
  cases hx : e.metadata.lookup "restaurant_id" with
  | none => exact h
  | some rid =>
      simp only
      by_cases hn : rid = Val.none
      · rw [if_pos hn]
        exact h
      · rw [if_neg hn]
        exact nodup_keys_applyAtKey _ _ _ h

theorem nodup_keys_foldl (step : AggSt → SearchItem → AggSt)
    (hstep : ∀ st e, (keysOf st.groups).Nodup → (keysOf (step st e).groups).Nodup)
    (es : List SearchItem) (st : AggSt) (h : (keysOf st.groups).Nodup) :
    (keysOf ((es.foldl step st).groups)).Nodup := by
  induction es generalizing st with
  | nil => exact h
  | cons e tl ih => exact ih _ (hstep st e h)

theorem nodup_keys_backfillStep (fetch : Val → Option Metadata)
    (gs : List (String × Agg)) (v : Val) (h : (keysOf gs).Nodup) :
    (keysOf (backfillStep fetch gs v)).Nodup := by
  unfold backfillStep
  cases hf : fetch v with
  | none => exact h
  | some payload =>
      simp only
      cases hl : gs.lookup (pyStr v) with
      | none => exact h
      | some a =>
          simp only
          by_cases hp : payload ≠ ([] : Metadata)
          · rw [if_pos hp]
            exact nodup_keys_assocSet gs _ _ h
          · rw [if_neg hp]
            exact h

/-- The final groups dict has pairwise-distinct keys. -/
theorem nodup_keys_finalGroups (fetch : Val → Option Metadata)
    (rs ms ts is : List SearchItem) :
    (keysOf (finalGroups fetch rs ms ts is)).Nodup := by
  unfold finalGroups backfill
  have h0 : (keysOf (([] : List (String × Agg)))).Nodup := by
    simp [keysOf]
  have h1 := nodup_keys_foldl stepRestaurant nodup_keys_stepRestaurant rs ⟨[], []⟩ h0
  have h2 := nodup_keys_foldl stepMenu nodup_keys_stepMenu ms _ h1
  have h3 := nodup_keys_foldl stepTable nodup_keys_stepTable ts _ h2
  have h4 := nodup_keys_foldl stepImage nodup_keys_stepImage is _ h3
  generalize hG : (is.foldl stepImage
    (ts.foldl stepTable (ms.foldl stepMenu
      (rs.foldl stepRestaurant ⟨[], []⟩)))) = stFinal
  rw [hG] at h4
  generalize stFinal.groups = gs at h4 ⊢
  induction stFinal.missing generalizing gs with
  | nil => exact h4
  | cons v tl ih =>
      rw [List.foldl_cons]
      exact ih _ (nodup_keys_backfillStep fetch gs v h4)

/-! ### Sub-item list evolution through the aggregation loops -/

theorem listProjOf_applyAtKey {γ : Type _} (proj : Agg → List γ)
    (gs : List (String × Agg)) (k : String) (f : Option Agg → Agg)
    (add : List γ) (hf : ∀ o, proj (f o) = ((o.map proj).getD []) ++ add)
    (k' : String) :
    (((applyAtKey gs k f).lookup k').map proj).getD [] =
      (((gs.lookup k').map proj).getD []) ++ (if k' = k then add else []) := by
  rw [lookup_applyAtKey]
  by_cases hk : k' = k
  · simp [hk, hf]
  · simp [hk]

theorem menus_updRestaurant (rid : Val) (md : Metadata) (sc : ℚ) (o : Option Agg) :
    (updRestaurant rid md sc o).matchedMenus = (o.map Agg.matchedMenus).getD [] := by
  cases o with
  | none => rfl
  | some a0 =>
      simp only [updRestaurant]
      split <;> rfl

theorem services_updRestaurant (rid : Val) (md : Metadata) (sc : ℚ)
    (o : Option Agg) :
    (updRestaurant rid md sc o).matchedServices =
      (o.map Agg.matchedServices).getD [] := by
  cases o with
  | none => rfl
  | some a0 =>
      simp only [updRestaurant]
      split <;> rfl

theorem tables_updRestaurant (rid : Val) (md : Metadata) (sc : ℚ)
    (o : Option Agg) :
    (updRestaurant rid md sc o).matchedTables =
      (o.map Agg.matchedTables).getD [] := by
  cases o with
  | none => rfl
  | some a0 =>
      simp only [updRestaurant]
      split <;> rfl

theorem images_updRestaurant (rid : Val) (md : Metadata) (sc : ℚ)
    (o : Option Agg) :
    (updRestaurant rid md sc o).matchedImages =
      (o.map Agg.matchedImages).getD [] := by
  cases o with
  | none => rfl
  | some a0 =>
      simp only [updRestaurant]
      split <;> rfl

theorem menus_updMenu (rid : Val) (md : Metadata) (d sc : ℚ) (o : Option Agg) :
    (updMenu rid md d sc o).matchedMenus =
      ((o.map Agg.matchedMenus).getD []) ++ menuAdd md d := by
  cases o <;>
    · simp only [updMenu, menuAdd]
      split
      · simp [freshAggEmpty]
      · split <;> simp [freshAggEmpty]

theorem services_updMenu (rid : Val) (md : Metadata) (d sc : ℚ) (o : Option Agg) :
    (updMenu rid md d sc o).matchedServices =
      ((o.map Agg.matchedServices).getD []) ++ serviceAdd md d := by
  cases o <;>
    · simp only [updMenu, serviceAdd]
      split
      · simp [freshAggEmpty]
      · split <;> simp [freshAggEmpty]

theorem tables_updMenu (rid : Val) (md : Metadata) (d sc : ℚ) (o : Option Agg) :
    (updMenu rid md d sc o).matchedTables =
      ((o.map Agg.matchedTables).getD []) ++ tableAddMenu md d := by
  cases o <;>
    · simp only [updMenu, tableAddMenu]
      split
      · simp [freshAggEmpty]
      · split <;> simp [freshAggEmpty]

theorem images_updMenu (rid : Val) (md : Metadata) (d sc : ℚ) (o : Option Agg) :
    (updMenu rid md d sc o).matchedImages =
      (o.map Agg.matchedImages).getD [] := by
  cases o <;>
    · simp only [updMenu]
      split
      · rfl
      · split <;> rfl

theorem menus_updTable (rid : Val) (md : Metadata) (d sc : ℚ) (o : Option Agg) :
    (updTable rid md d sc o).matchedMenus = (o.map Agg.matchedMenus).getD [] := by
  cases o <;> rfl

theorem services_updTable (rid : Val) (md : Metadata) (d sc : ℚ) (o : Option Agg) :
    (updTable rid md d sc o).matchedServices =
      (o.map Agg.matchedServices).getD [] := by
  cases o <;> rfl

theorem tables_updTable (rid : Val) (md : Metadata) (d sc : ℚ) (o : Option Agg) :
    (updTable rid md d sc o).matchedTables =
      ((o.map Agg.matchedTables).getD []) ++
        [simplifyMatchedItem md d "table"] := by
  cases o <;> rfl

theorem images_updTable (rid : Val) (md : Metadata) (d sc : ℚ) (o : Option Agg) :
    (updTable rid md d sc o).matchedImages = (o.map Agg.matchedImages).getD [] := by
  cases o <;> rfl

theorem menus_updImage (rid : Val) (md : Metadata) (d sc : ℚ) (o : Option Agg) :
    (updImage rid md d sc o).matchedMenus = (o.map Agg.matchedMenus).getD [] := by
  cases o <;> rfl

theorem services_updImage (rid : Val) (md : Metadata) (d sc : ℚ) (o : Option Agg) :
    (updImage rid md d sc o).matchedServices =
      (o.map Agg.matchedServices).getD [] := by
  cases o <;> rfl

theorem tables_updImage (rid : Val) (md : Metadata) (d sc : ℚ) (o : Option Agg) :
    (updImage rid md d sc o).matchedTables = (o.map Agg.matchedTables).getD [] := by
  cases o <;> rfl

theorem images_updImage (rid : Val) (md : Metadata) (d sc : ℚ) (o : Option Agg) :
    (updImage rid md d sc o).matchedImages =
      ((o.map Agg.matchedImages).getD []) ++ [mkImageItem md d] := by
  cases o <;> rfl

theorem listProjOf_applyAtKey_id {γ : Type _} (proj : Agg → List γ)
    (gs : List (String × Agg)) (k : String) (f : Option Agg → Agg)
    (hf : ∀ o, proj (f o) = ((o.map proj).getD [])) (k' : String) :
    (((applyAtKey gs k f).lookup k').map proj).getD [] =
      ((gs.lookup k').map proj).getD [] := by
  rw [lookup_applyAtKey]
  by_cases hk : k' = k
  · simp [hk, hf]
  · simp [hk]

theorem menusOf_stepRestaurant (st : AggSt) (e : SearchItem) (k : String) :
    menusOf (stepRestaurant st e).groups k = menusOf st.groups k := by
  unfold stepRestaurant
  cases h : extractRestaurantIdFromMetadata e.metadata with
  | none => rfl
  | some rid =>
      simp only
      exact listProjOf_applyAtKey_id Agg.matchedMenus _ _ _
        (fun o => menus_updRestaurant rid e.metadata (hitScore e) o) k

theorem servicesOf_stepRestaurant (st : AggSt) (e : SearchItem) (k : String) :
    servicesOf (stepRestaurant st e).groups k = servicesOf st.groups k := by
  unfold stepRestaurant
  cases h : extractRestaurantIdFromMetadata e.metadata with
  | none => rfl
  | some rid =>
      simp only
      exact listProjOf_applyAtKey_id Agg.matchedServices _ _ _
        (fun o => services_updRestaurant rid e.metadata (hitScore e) o) k

theorem tablesOf_stepRestaurant (st : AggSt) (e : SearchItem) (k : String) :
    tablesOf (stepRestaurant st e).groups k = tablesOf st.groups k := by
  unfold stepRestaurant
  cases h : extractRestaurantIdFromMetadata e.metadata with
  | none => rfl
  | some rid =>
      simp only
      exact listProjOf_applyAtKey_id Agg.matchedTables _ _ _
        (fun o => tables_updRestaurant rid e.metadata (hitScore e) o) k

theorem imagesOf_stepRestaurant (st : AggSt) (e : SearchItem) (k : String) :
    imagesOf (stepRestaurant st e).groups k = imagesOf st.groups k := by
  unfold stepRestaurant
  cases h : extractRestaurantIdFromMetadata e.metadata with
  | none => rfl
  | some rid =>
      simp only
      exact listProjOf_applyAtKey_id Agg.matchedImages _ _ _
        (fun o => images_updRestaurant rid e.metadata (hitScore e) o) k

theorem menusOf_stepMenu (st : AggSt) (e : SearchItem) (k : String) :
    menusOf (stepMenu st e).groups k = menusOf st.groups k ++ menuContrib e k := by
  unfold stepMenu
  cases h : extractRestaurantIdFromMetadata e.metadata with
  | none => simp [menuContrib, keyExtract, h]
  | some rid =>
      simp only
      unfold menusOf
      rw [listProjOf_applyAtKey Agg.matchedMenus _ _ _
        (menuAdd e.metadata (e.distance.getD 1))
        (fun o => menus_updMenu rid e.metadata (e.distance.getD 1) (hitScore e) o) k]
      unfold menuContrib
      by_cases hk : k = pyStr rid
      · rw [if_pos hk, if_pos (show keyExtract e = some k by
          simp only [keyExtract, h, Option.map_some']
          rw [hk])]
        rfl
      · rw [if_neg hk, if_neg (show ¬keyExtract e = some k from fun hcon => by
          simp only [keyExtract, h, Option.map_some', Option.some.injEq] at hcon
          exact hk hcon.symm)]

theorem servicesOf_stepMenu (st : AggSt) (e : SearchItem) (k : String) :
    servicesOf (stepMenu st e).groups k =
      servicesOf st.groups k ++ serviceContrib e k := by
  unfold stepMenu
  cases h : extractRestaurantIdFromMetadata e.metadata with
  | none => simp [serviceContrib, keyExtract, h]
  | some rid =>
      simp only
      unfold servicesOf
      rw [listProjOf_applyAtKey Agg.matchedServices _ _ _
        (serviceAdd e.metadata (e.distance.getD 1))
        (fun o => services_updMenu rid e.metadata (e.distance.getD 1) (hitScore e) o) k]
      unfold serviceContrib
      by_cases hk : k = pyStr rid
      · rw [if_pos hk, if_pos (show keyExtract e = some k by
          simp only [keyExtract, h, Option.map_some']
          rw [hk])]
        rfl
      · rw [if_neg hk, if_neg (show ¬keyExtract e = some k from fun hcon => by
          simp only [keyExtract, h, Option.map_some', Option.some.injEq] at hcon
          exact hk hcon.symm)]

theorem tablesOf_stepMenu (st : AggSt) (e : SearchItem) (k : String) :
    tablesOf (stepMenu st e).groups k =
      tablesOf st.groups k ++ tableContribMenu e k := by
  unfold stepMenu
  cases h : extractRestaurantIdFromMetadata e.metadata with
  | none => simp [tableContribMenu, keyExtract, h]
  | some rid =>
      simp only
      unfold tablesOf
      rw [listProjOf_applyAtKey Agg.matchedTables _ _ _
        (tableAddMenu e.metadata (e.distance.getD 1))
        (fun o => tables_updMenu rid e.metadata (e.distance.getD 1) (hitScore e) o) k]
      unfold tableContribMenu
      by_cases hk : k = pyStr rid
      · rw [if_pos hk, if_pos (show keyExtract e = some k by
          simp only [keyExtract, h, Option.map_some']
          rw [hk])]
        rfl
      · rw [if_neg hk, if_neg (show ¬keyExtract e = some k from fun hcon => by
          simp only [keyExtract, h, Option.map_some', Option.some.injEq] at hcon
          exact hk hcon.symm)]

theorem imagesOf_stepMenu (st : AggSt) (e : SearchItem) (k : String) :
    imagesOf (stepMenu st e).groups k = imagesOf st.groups k := by
  unfold stepMenu
  cases h : extractRestaurantIdFromMetadata e.metadata with
  | none => rfl
  | some rid =>
      simp only
      exact listProjOf_applyAtKey_id Agg.matchedImages _ _ _
        (fun o => images_updMenu rid e.metadata (e.distance.getD 1) (hitScore e) o) k

theorem menusOf_stepTable (st : AggSt) (e : SearchItem) (k : String) :
    menusOf (stepTable st e).groups k = menusOf st.groups k := by
  unfold stepTable
  cases h : extractRestaurantIdFromMetadata e.metadata with
  | none => rfl
  | some rid =>
      simp only
      exact listProjOf_applyAtKey_id Agg.matchedMenus _ _ _
        (fun o => menus_updTable rid e.metadata (e.distance.getD 1) (hitScore e) o) k

theorem servicesOf_stepTable (st : AggSt) (e : SearchItem) (k : String) :
    servicesOf (stepTable st e).groups k = servicesOf st.groups k := by
  unfold stepTable
  cases h : extractRestaurantIdFromMetadata e.metadata with
  | none => rfl
  | some rid =>
      simp only
      exact listProjOf_applyAtKey_id Agg.matchedServices _ _ _
        (fun o => services_updTable rid e.metadata (e.distance.getD 1) (hitScore e) o) k

theorem tablesOf_stepTable (st : AggSt) (e : SearchItem) (k : String) :
    tablesOf (stepTable st e).groups k = tablesOf st.groups k ++ tableContrib e k := by
  unfold stepTable
  cases h : extractRestaurantIdFromMetadata e.metadata with
  | none => simp [tableContrib, keyExtract, h]
  | some rid =>
      simp only
      unfold tablesOf
      rw [listProjOf_applyAtKey Agg.matchedTables _ _ _
        [simplifyMatchedItem e.metadata (e.distance.getD 1) "table"]
        (fun o => tables_updTable rid e.metadata (e.distance.getD 1) (hitScore e) o) k]
      unfold tableContrib
      by_cases hk : k = pyStr rid
      · rw [if_pos hk, if_pos (show keyExtract e = some k by
          simp only [keyExtract, h, Option.map_some']
          rw [hk])]
      · rw [if_neg hk, if_neg (show ¬keyExtract e = some k from fun hcon => by
          simp only [keyExtract, h, Option.map_some', Option.some.injEq] at hcon
          exact hk hcon.symm)]

theorem imagesOf_stepTable (st : AggSt) (e : SearchItem) (k : String) :
    imagesOf (stepTable st e).groups k = imagesOf st.groups k := by
  unfold stepTable
  cases h : extractRestaurantIdFromMetadata e.metadata with
  | none => rfl
  | some rid =>
      simp only
      exact listProjOf_applyAtKey_id Agg.matchedImages _ _ _
        (fun o => images_updTable rid e.metadata (e.distance.getD 1) (hitScore e) o) k

theorem menusOf_stepImage (st : AggSt) (e : SearchItem) (k : String) :
    menusOf (stepImage st e).groups k = menusOf st.groups k := by
  unfold stepImage
  cases h : e.metadata.lookup "restaurant_id" with
  | none => rfl
  | some rid =>
      simp only
      by_cases hn : rid = Val.none
      · rw [if_pos hn]
      · rw [if_neg hn]
        exact listProjOf_applyAtKey_id Agg.matchedMenus _ _ _
          (fun o => menus_updImage rid e.metadata (e.distance.getD 1) (hitScore e) o) k

theorem servicesOf_stepImage (st : AggSt) (e : SearchItem) (k : String) :
    servicesOf (stepImage st e).groups k = servicesOf st.groups k := by
  unfold stepImage
  cases h : e.metadata.lookup "restaurant_id" with
  | none => rfl
  | some rid =>
      simp only
      by_cases hn : rid = Val.none
      · rw [if_pos hn]
      · rw [if_neg hn]
        exact listProjOf_applyAtKey_id Agg.matchedServices _ _ _
          (fun o => services_updImage rid e.metadata (e.distance.getD 1) (hitScore e) o) k

theorem tablesOf_stepImage (st : AggSt) (e : SearchItem) (k : String) :
    tablesOf (stepImage st e).groups k = tablesOf st.groups k := by
  unfold stepImage
  cases h : e.metadata.lookup "restaurant_id" with
  | none => rfl
  | some rid =>
      simp only
      by_cases hn : rid = Val.none
      · rw [if_pos hn]
      · rw [if_neg hn]
        exact listProjOf_applyAtKey_id Agg.matchedTables _ _ _
          (fun o => tables_updImage rid e.metadata (e.distance.getD 1) (hitScore e) o) k

theorem imagesOf_stepImage (st : AggSt) (e : SearchItem) (k : String) :
    imagesOf (stepImage st e).groups k = imagesOf st.groups k ++ imageContrib e k := by
  unfold stepImage
  cases h : e.metadata.lookup "restaurant_id" with
  | none => simp [imageContrib, keyImage, h]
  | some rid =>
      simp only
      by_cases hn : rid = Val.none
      · rw [if_pos hn]
        simp [imageContrib, keyImage, h, hn]
      · rw [if_neg hn]
        unfold imagesOf
        rw [listProjOf_applyAtKey Agg.matchedImages _ _ _
          [mkImageItem e.metadata (e.distance.getD 1)]
          (fun o => images_updImage rid e.metadata (e.distance.getD 1) (hitScore e) o) k]
        unfold imageContrib
        by_cases hk : k = pyStr rid
        · rw [if_pos hk, if_pos (show keyImage e = some k by
            simp only [keyImage, h, if_neg hn]
            rw [hk])]
        · rw [if_neg hk, if_neg (show ¬keyImage e = some k from fun hcon => by
            simp only [keyImage, h, if_neg hn, Option.some.injEq] at hcon
            exact hk hcon.symm)]

theorem listOf_foldl {γ : Type _} (step : AggSt → SearchItem → AggSt)
    (contrib : SearchItem → String → List γ)
    (projOf : List (String × Agg) → String → List γ)
    (hstep : ∀ st e k, projOf (step st e).groups k = projOf st.groups k ++ contrib e k)
    (es : List SearchItem) (st : AggSt) (k : String) :
    projOf ((es.foldl step st).groups) k =
      projOf st.groups k ++ (es.map (fun e => contrib e k)).flatten := by
  induction es generalizing st with
  | nil => simp
  | cons e tl ih =>
      rw [List.foldl_cons, ih, hstep, List.map_cons, List.flatten_cons,
        List.append_assoc]

theorem listOf_foldl_id {γ : Type _} (step : AggSt → SearchItem → AggSt)
    (projOf : List (String × Agg) → String → List γ)
    (hstep : ∀ st e k, projOf (step st e).groups k = projOf st.groups k)
    (es : List SearchItem) (st : AggSt) (k : String) :
    projOf ((es.foldl step st).groups) k = projOf st.groups k := by
  induction es generalizing st with
  | nil => rfl
  | cons e tl ih => rw [List.foldl_cons, ih, hstep]

theorem listProj_backfillStep {γ : Type _} (proj : Agg → List γ)
    (hproj : ∀ (a : Agg) (p : Metadata), proj { a with restaurant := some p } = proj a)
    (fetch : Val → Option Metadata) (gs : List (String × Agg)) (v : Val)
    (k : String) :
    (((backfillStep fetch gs v).lookup k).map proj).getD [] =
      ((gs.lookup k).map proj).getD [] := by
  unfold backfillStep
  cases hf : fetch v with
  | none => rfl
  | some payload =>
      simp only
      cases hl : gs.lookup (pyStr v) with
      | none => rfl
      | some a =>
          simp only
          by_cases hp : payload ≠ ([] : Metadata)
          · rw [if_pos hp, lookup_assocSet]
            by_cases hk : k = pyStr v
            · subst hk
              rw [if_pos rfl, hl]
              simp [hproj]
            · rw [if_neg hk]
          · rw [if_neg hp]

theorem listProj_backfill {γ : Type _} (proj : Agg → List γ)
    (hproj : ∀ (a : Agg) (p : Metadata), proj { a with restaurant := some p } = proj a)
    (fetch : Val → Option Metadata) (st : AggSt) (k : String) :
    (((backfill fetch st).lookup k).map proj).getD [] =
      ((st.groups.lookup k).map proj).getD [] := by
  unfold backfill
  generalize st.groups = gs
  induction st.missing generalizing gs with
  | nil => rfl
  | cons v tl ih =>
      rw [List.foldl_cons, ih, listProj_backfillStep proj hproj]

/-- Each final group's matched-menu list is the concatenation, in input
order, of the menu items contributed by the menus-collection hits keyed to
it. -/
theorem menusOf_finalGroups (fetch : Val → Option Metadata)
    (rs ms ts is : List SearchItem) (k : String) :
    menusOf (finalGroups fetch rs ms ts is) k =
      (ms.map (fun e => menuContrib e k)).flatten := by
  unfold finalGroups
  have hb : ∀ st : AggSt, menusOf (backfill fetch st) k = menusOf st.groups k :=
    fun st => listProj_backfill Agg.matchedMenus (fun a p => rfl) fetch st k
  rw [hb]
  rw [listOf_foldl_id stepImage menusOf menusOf_stepImage,
    listOf_foldl_id stepTable menusOf menusOf_stepTable,
    listOf_foldl stepMenu menuContrib menusOf menusOf_stepMenu,
    listOf_foldl_id stepRestaurant menusOf menusOf_stepRestaurant]
  simp [menusOf, lookup_nil]

theorem servicesOf_finalGroups (fetch : Val → Option Metadata)
    (rs ms ts is : List SearchItem) (k : String) :
    servicesOf (finalGroups fetch rs ms ts is) k =
      (ms.map (fun e => serviceContrib e k)).flatten := by
  unfold finalGroups
  have hb : ∀ st : AggSt, servicesOf (backfill fetch st) k = servicesOf st.groups k :=
    fun st => listProj_backfill Agg.matchedServices (fun a p => rfl) fetch st k
  rw [hb]
  rw [listOf_foldl_id stepImage servicesOf servicesOf_stepImage,
    listOf_foldl_id stepTable servicesOf servicesOf_stepTable,
    listOf_foldl stepMenu serviceContrib servicesOf servicesOf_stepMenu,
    listOf_foldl_id stepRestaurant servicesOf servicesOf_stepRestaurant]
  simp [servicesOf, lookup_nil]

theorem tablesOf_finalGroups (fetch : Val → Option Metadata)
    (rs ms ts is : List SearchItem) (k : String) :
    tablesOf (finalGroups fetch rs ms ts is) k =
      (ms.map (fun e => tableContribMenu e k)).flatten ++
      (ts.map (fun e => tableContrib e k)).flatten := by
  unfold finalGroups
  have hb : ∀ st : AggSt, tablesOf (backfill fetch st) k = tablesOf st.groups k :=
    fun st => listProj_backfill Agg.matchedTables (fun a p => rfl) fetch st k
  rw [hb]
  rw [listOf_foldl_id stepImage tablesOf tablesOf_stepImage,
    listOf_foldl stepTable tableContrib tablesOf tablesOf_stepTable,
    listOf_foldl stepMenu tableContribMenu tablesOf tablesOf_stepMenu,
    listOf_foldl_id stepRestaurant tablesOf tablesOf_stepRestaurant]
  simp [tablesOf, lookup_nil]

theorem imagesOf_finalGroups (fetch : Val → Option Metadata)
    (rs ms ts is : List SearchItem) (k : String) :
    imagesOf (finalGroups fetch rs ms ts is) k =
      (is.map (fun e => imageContrib e k)).flatten := by
  unfold finalGroups
  have hb : ∀ st : AggSt, imagesOf (backfill fetch st) k = imagesOf st.groups k :=
    fun st => listProj_backfill Agg.matchedImages (fun a p => rfl) fetch st k
  rw [hb]
  rw [listOf_foldl stepImage imageContrib imagesOf imagesOf_stepImage,
    listOf_foldl_id stepTable imagesOf imagesOf_stepTable,
    listOf_foldl_id stepMenu imagesOf imagesOf_stepMenu,
    listOf_foldl_id stepRestaurant imagesOf imagesOf_stepRestaurant]
  simp [imagesOf, lookup_nil]

/-! ### Missing-id list and restaurant-slot tracking (backfill analysis) -/

theorem restaurant_updMenu (rid : Val) (md : Metadata) (d sc : ℚ) (o : Option Agg) :
    (updMenu rid md d sc o).restaurant = (o.map Agg.restaurant).getD Option.none := by
  cases o <;>
    · simp only [updMenu]
      split
      · rfl
      · split <;> rfl

theorem restaurant_updTable (rid : Val) (md : Metadata) (d sc : ℚ) (o : Option Agg) :
    (updTable rid md d sc o).restaurant = (o.map Agg.restaurant).getD Option.none := by
  cases o <;> rfl

theorem restaurant_updImage (rid : Val) (md : Metadata) (d sc : ℚ) (o : Option Agg) :
    (updImage rid md d sc o).restaurant = (o.map Agg.restaurant).getD Option.none := by
  cases o <;> rfl

theorem missing_stepRestaurant (st : AggSt) (e : SearchItem) :
    (stepRestaurant st e).missing = st.missing := by
  unfold stepRestaurant
  cases extractRestaurantIdFromMetadata e.metadata <;> rfl

theorem missing_stepTable (st : AggSt) (e : SearchItem) :
    (stepTable st e).missing = st.missing := by
  unfold stepTable
  cases extractRestaurantIdFromMetadata e.metadata <;> rfl

theorem missing_stepImage (st : AggSt) (e : SearchItem) :
    (stepImage st e).missing = st.missing := by
  unfold stepImage
  cases e.metadata.lookup "restaurant_id" with
  | none => rfl
  | some rid =>
      simp only
      by_cases hn : rid = Val.none
      · rw [if_pos hn]
      · rw [if_neg hn]

theorem missing_foldl_const (step : AggSt → SearchItem → AggSt)
    (hstep : ∀ st e, (step st e).missing = st.missing)
    (es : List SearchItem) (st : AggSt) :
    (es.foldl step st).missing = st.missing := by
  induction es generalizing st with
  | nil => rfl
  | cons e tl ih => rw [List.foldl_cons, ih, hstep]

theorem mem_addMissing_self (ms : List Val) (v : Val) : v ∈ addMissing ms v := by
  unfold addMissing
  split
  · rename_i h
    exact List.mem_of_elem_eq_true h
  · exact List.mem_append_right _ (List.mem_singleton_self v)

theorem mem_addMissing_mono (ms : List Val) (v w : Val) (h : v ∈ ms) :
    v ∈ addMissing ms w := by
  unfold addMissing
  split
  · exact h
  · exact List.mem_append_left _ h

theorem missing_mono_stepMenu (st : AggSt) (e : SearchItem) (v : Val)
    (h : v ∈ st.missing) : v ∈ (stepMenu st e).missing := by
  unfold stepMenu
  cases hx : extractRestaurantIdFromMetadata e.metadata with
  | none => exact h
  | some rid =>
      simp only
      split
      · exact mem_addMissing_mono _ _ _ h
      · exact h

theorem missing_mono_foldl_stepMenu (es : List SearchItem) (st : AggSt) (v : Val)
    (h : v ∈ st.missing) : v ∈ (es.foldl stepMenu st).missing := by
  induction es generalizing st with
  | nil => exact h
  | cons e tl ih => exact ih _ (missing_mono_stepMenu st e v h)

theorem mem_addMissing_src (ms : List Val) (v w : Val)
    (h : v ∈ addMissing ms w) : v ∈ ms ∨ v = w := by
  unfold addMissing at h
  split at h
  · exact Or.inl h
  · rcases List.mem_append.mp h with h | h
    · exact Or.inl h
    · exact Or.inr (List.mem_singleton.mp h)

theorem missing_src_stepMenu (st : AggSt) (e : SearchItem) (v : Val)
    (h : v ∈ (stepMenu st e).missing) :
    v ∈ st.missing ∨ extractRestaurantIdFromMetadata e.metadata = some v := by
  unfold stepMenu at h
  cases hx : extractRestaurantIdFromMetadata e.metadata with
  | none =>
      rw [hx] at h
      exact Or.inl h
  | some rid =>
      rw [hx] at h
      simp only at h
      split at h
      · rcases mem_addMissing_src _ _ _ h with h | h
        · exact Or.inl h
        · exact Or.inr (by rw [h])
      · exact Or.inl h

theorem missing_src_foldl_stepMenu (es : List SearchItem) (st : AggSt) (v : Val)
    (h : v ∈ (es.foldl stepMenu st).missing) :
    v ∈ st.missing ∨ ∃ e ∈ es, extractRestaurantIdFromMetadata e.metadata = some v := by
  induction es generalizing st with
  | nil => exact Or.inl h
  | cons e tl ih =>
      rw [List.foldl_cons] at h
      rcases ih _ h with h1 | h1
      · rcases missing_src_stepMenu st e v h1 with h2 | h2
        · exact Or.inl h2
        · exact Or.inr ⟨e, List.mem_cons_self e tl, h2⟩
      · obtain ⟨x, hx, hkx⟩ := h1
        exact Or.inr ⟨x, List.mem_cons_of_mem e hx, hkx⟩

theorem restNone_stepMenu (st : AggSt) (e : SearchItem) (k : String)
    (hP : ∀ a, st.groups.lookup k = some a → a.restaurant = Option.none) :
    ∀ a, (stepMenu st e).groups.lookup k = some a → a.restaurant = Option.none := by
  unfold stepMenu
  cases hx : extractRestaurantIdFromMetadata e.metadata with
  | none => exact hP
  | some rid =>
      simp only
      intro a ha
      rw [lookup_applyAtKey] at ha
      by_cases hk : k = pyStr rid
      · rw [if_pos hk] at ha
        obtain rfl := Option.some.inj ha
        rw [restaurant_updMenu]
        cases hl : st.groups.lookup (pyStr rid) with
        | none => rfl
        | some a0 =>
            simp only [hl, Option.map_some', Option.getD_some]
            exact hP a0 (hk ▸ hl)
      · rw [if_neg hk] at ha
        exact hP a ha

theorem restNone_stepTable (st : AggSt) (e : SearchItem) (k : String)
    (hP : ∀ a, st.groups.lookup k = some a → a.restaurant = Option.none) :
    ∀ a, (stepTable st e).groups.lookup k = some a → a.restaurant = Option.none := by
  unfold stepTable
  cases hx : extractRestaurantIdFromMetadata e.metadata with
  | none => exact hP
  | some rid =>
      simp only
      intro a ha
      rw [lookup_applyAtKey] at ha
      by_cases hk : k = pyStr rid
      · rw [if_pos hk] at ha
        obtain rfl := Option.some.inj ha
        rw [restaurant_updTable]
        cases hl : st.groups.lookup (pyStr rid) with
        | none => rfl
        | some a0 =>
            simp only [hl, Option.map_some', Option.getD_some]
            exact hP a0 (hk ▸ hl)
      · rw [if_neg hk] at ha
        exact hP a ha

theorem restNone_stepImage (st : AggSt) (e : SearchItem) (k : String)
    (hP : ∀ a, st.groups.lookup k = some a → a.restaurant = Option.none) :
    ∀ a, (stepImage st e).groups.lookup k = some a → a.restaurant = Option.none := by
  unfold stepImage
  cases hx : e.metadata.lookup "restaurant_id" with
  | none => exact hP
  | some rid =>
      simp only
      by_cases hn : rid = Val.none
      · rw [if_pos hn]
        exact hP
      · rw [if_neg hn]
        intro a ha
        rw [lookup_applyAtKey] at ha
        by_cases hk : k = pyStr rid
        · rw [if_pos hk] at ha
          obtain rfl := Option.some.inj ha
          rw [restaurant_updImage]
          cases hl : st.groups.lookup (pyStr rid) with
          | none => rfl
          | some a0 =>
              simp only [hl, Option.map_some', Option.getD_some]
              exact hP a0 (hk ▸ hl)
        · rw [if_neg hk] at ha
          exact hP a ha

theorem restNone_foldl (step : AggSt → SearchItem → AggSt) (k : String)
    (hstep : ∀ st e,
      (∀ a, st.groups.lookup k = some a → a.restaurant = Option.none) →
      ∀ a, (step st e).groups.lookup k = some a → a.restaurant = Option.none)
    (es : List SearchItem) (st : AggSt)
    (h : ∀ a, st.groups.lookup k = some a → a.restaurant = Option.none) :
    ∀ a, ((es.foldl step st).groups).lookup k = some a →
      a.restaurant = Option.none := by
  induction es generalizing st with
  | nil => exact h
  | cons e tl ih => exact ih _ (hstep st e h)

theorem mem_missing_stepMenu_self (st : AggSt) (e : SearchItem) (rid : Val)
    (hx : extractRestaurantIdFromMetadata e.metadata = some rid)
    (hP : ∀ a, st.groups.lookup (pyStr rid) = some a →
      a.restaurant = Option.none) :
    rid ∈ (stepMenu st e).missing := by
  unfold stepMenu
  rw [hx]
  simp only
  have ha0 : ((st.groups.lookup (pyStr rid)).getD (freshAggEmpty rid)).restaurant =
      Option.none := by
    cases hl : st.groups.lookup (pyStr rid) with
    | none => rfl
    | some a0 =>
        simp only [Option.getD_some]
        exact hP a0 hl
  rw [if_pos ha0]
  exact mem_addMissing_self st.missing rid

theorem lookup_backfillStep_ne (fetch : Val → Option Metadata)
    (gs : List (String × Agg)) (w : Val) (k : String) (hne : ¬(k = pyStr w)) :
    (backfillStep fetch gs w).lookup k = gs.lookup k := by
  unfold backfillStep
  cases hf : fetch w with
  | none => rfl
  | some payload =>
      simp only
      cases hl : gs.lookup (pyStr w) with
      | none => rfl
      | some a =>
          simp only
          by_cases hp : payload ≠ ([] : Metadata)
          · rw [if_pos hp, lookup_assocSet, if_neg hne]
          · rw [if_neg hp]

theorem backfill_keeps_payload (fetch : Val → Option Metadata) (rid : Val)
    (payload : Metadata) (hfetch : fetch rid = some payload)
    (hpay : payload ≠ ([] : Metadata)) (tl : List Val) :
    ∀ (gs : List (String × Agg)) (a : Agg),
      gs.lookup (pyStr rid) = some a → a.restaurant = some payload →
      (∀ v ∈ tl, pyStr v = pyStr rid → v = rid) →
      ∃ a', (tl.foldl (backfillStep fetch) gs).lookup (pyStr rid) = some a' ∧
        a'.restaurant = some payload := by
  induction tl with
  | nil =>
      intro gs a ha har _
      exact ⟨a, ha, har⟩
  | cons w tl ih =>
      intro gs a ha har hkey
      rw [List.foldl_cons]
      by_cases hw : pyStr w = pyStr rid
      · have hwr : w = rid := hkey w (List.mem_cons_self w tl) hw
        subst hwr
        refine ih (backfillStep fetch gs w)
          { a with restaurant := some payload } ?_ rfl
          (fun v hv => hkey v (List.mem_cons_of_mem w hv))
        unfold backfillStep
        rw [hfetch]
        simp only
        rw [ha]
        simp only
        rw [if_pos hpay, lookup_assocSet, if_pos rfl]
      · have hne : ¬(pyStr rid = pyStr w) := fun hcon => hw hcon.symm
        refine ih (backfillStep fetch gs w) a ?_ har
          (fun v hv => hkey v (List.mem_cons_of_mem w hv))
        rw [lookup_backfillStep_ne fetch gs w _ hne]
        exact ha

theorem backfill_fills (fetch : Val → Option Metadata) (rid : Val)
    (payload : Metadata) (hfetch : fetch rid = some payload)
    (hpay : payload ≠ ([] : Metadata)) (missing : List Val) :
    ∀ (gs : List (String × Agg)),
      rid ∈ missing →
      (∀ v ∈ missing, pyStr v = pyStr rid → v = rid) →
      (gs.lookup (pyStr rid)).isSome = true →
      ∃ a', (missing.foldl (backfillStep fetch) gs).lookup (pyStr rid) = some a' ∧
        a'.restaurant = some payload := by
  induction missing with
  | nil =>
      intro gs hmem _ _
      simp at hmem
  | cons v tl ih =>
      intro gs hmem hkey hex
      rw [List.foldl_cons]
      by_cases hv : v = rid
      · subst hv
        obtain ⟨a, ha⟩ := Option.isSome_iff_exists.mp hex
        refine backfill_keeps_payload fetch v payload hfetch hpay tl
          (backfillStep fetch gs v) { a with restaurant := some payload } ?_ rfl
          (fun w hw => hkey w (List.mem_cons_of_mem v hw))
        unfold backfillStep
        rw [hfetch]
        simp only
        rw [ha]
        simp only
        rw [if_pos hpay, lookup_assocSet, if_pos rfl]
      · have hmem' : rid ∈ tl := by
          rcases List.mem_cons.mp hmem with h | h
          · exact absurd h.symm hv
          · exact h
        refine ih (backfillStep fetch gs v) hmem'
          (fun w hw => hkey w (List.mem_cons_of_mem v hw)) ?_
        rw [hasKey_backfillStep]
        exact hex

theorem mem_missing_foldl_stepMenu (es : List SearchItem) (st : AggSt) (rid : Val)
    (hP : ∀ a, st.groups.lookup (pyStr rid) = some a → a.restaurant = Option.none)
    (he : ∃ e ∈ es, extractRestaurantIdFromMetadata e.metadata = some rid) :
    rid ∈ (es.foldl stepMenu st).missing := by
  induction es generalizing st with
  | nil => simp at he
  | cons e tl ih =>
      rw [List.foldl_cons]
      rcases he with ⟨x, hx, hkx⟩
      rcases List.mem_cons.mp hx with hx1 | hx1
      · subst hx1
        exact missing_mono_foldl_stepMenu tl _ rid
          (mem_missing_stepMenu_self st x rid hkx hP)
      · exact ih (stepMenu st e) (restNone_stepMenu st e _ hP) ⟨x, hx1, hkx⟩

/-- C8 counterexample: a group formed solely from a tables-collection hit is
never backfilled, even though the batch lookup could resolve its id — the
emitted primary attributes are just `{"id": 7}`, not the fetched payload. -/
theorem C8_counterexample :
    (fun v => if v = Val.i 7 then some [("name", Val.s "Quán X")] else Option.none :
        Val → Option Metadata) (Val.i 7) = some [("name", Val.s "Quán X")] ∧
    ((aggregateSearchResults
        (fun v => if v = Val.i 7 then some [("name", Val.s "Quán X")] else Option.none)
        [] []
        [⟨Val.i 0, [("tableId", Val.i 9), ("restaurant_id", Val.i 7)], Option.none⟩]
        []).restaurants.map AggEntity.attrs) = [[("id", Val.i 7)]] := by
  constructor
  · rfl
  · have hext : extractRestaurantIdFromMetadata
        [("tableId", Val.i 9), ("restaurant_id", Val.i 7)] = some (Val.i 7) := by decide
    simp only [aggregateSearchResults, finalGroups, List.foldl_cons, List.foldl_nil,
      stepTable, hext, backfill]
    simp only [applyAtKey, lookup_nil, assocSet, List.foldl_nil]
    simp only [List.map_cons, List.map_nil, List.mergeSort_singleton]
    rfl

/-- C8 (amended): after all groups are built, the aggregator backfills —
via the batch lookup-by-id — exactly the groups that received a hit from the
menus fan-out collection while still lacking primary attributes; a group
whose hits came only from the tables or image collections is not backfilled.
Here: if no primary hit carries key `k`, some menus hit carries owner id
`rid` (with key `k`), the menus hits cause no key collision, and the lookup
returns a non-empty payload for `rid`, then the final group at `k` holds that
payload as its primary attributes. -/
theorem C8_backfill_from_menus (fetch : Val → Option Metadata)
    (rs ms ts is : List SearchItem) (rid : Val) (payload : Metadata)
    (hms : ∃ e ∈ ms, extractRestaurantIdFromMetadata e.metadata = some rid)
    (hrs : ∀ e ∈ rs, keyExtract e ≠ some (pyStr rid))
    (hcol : ∀ e ∈ ms, ∀ v, extractRestaurantIdFromMetadata e.metadata = some v →
      pyStr v = pyStr rid → v = rid)
    (hfetch : fetch rid = some payload) (hpay : payload ≠ ([] : Metadata)) :
    ∃ a, (finalGroups fetch rs ms ts is).lookup (pyStr rid) = some a ∧
      a.restaurant = some payload := by
  unfold finalGroups
  set st0 : AggSt := ⟨[], []⟩ with hst0
  set st1 := rs.foldl stepRestaurant st0 with hst1
  set st2 := ms.foldl stepMenu st1 with hst2
  set st3 := ts.foldl stepTable st2 with hst3
  set st4 := is.foldl stepImage st3 with hst4
  -- after the restaurants loop, no group exists for the key
  have hA : st1.groups.lookup (pyStr rid) = Option.none := by
    have hiff := hasKey_foldl stepRestaurant keyExtract hasKey_stepRestaurant rs st0
      (pyStr rid)
    cases hlk : st1.groups.lookup (pyStr rid) with
    | none => rfl
    | some a =>
        rw [← hst1, hlk] at hiff
        rcases hiff.mp rfl with h | h
        · obtain ⟨e, he, hke⟩ := h
          exact absurd hke (hrs e he)
        · rw [hst0] at h
          simp [lookup_nil] at h
  have hPnone : ∀ a, st1.groups.lookup (pyStr rid) = some a →
      a.restaurant = Option.none := by
    intro a ha
    rw [hA] at ha
    exact absurd ha (by simp)
  -- the menus loop records the id among the missing ids
  have hB : rid ∈ st2.missing :=
    mem_missing_foldl_stepMenu ms st1 rid hPnone hms
  -- the tables and images loops do not touch the missing list
  have hC : st4.missing = st2.missing := by
    rw [hst4, hst3, missing_foldl_const stepImage missing_stepImage,
      missing_foldl_const stepTable missing_stepTable]
  -- the group exists before the backfill
  have hE : (st4.groups.lookup (pyStr rid)).isSome = true := by
    obtain ⟨e, he, hke⟩ := hms
    have hk2 : (st2.groups.lookup (pyStr rid)).isSome = true := by
      rw [hst2]
      rw [hasKey_foldl stepMenu keyExtract hasKey_stepMenu ms st1 (pyStr rid)]
      exact Or.inl ⟨e, he, by rw [keyExtract, hke]; rfl⟩
    have hk3 : (st3.groups.lookup (pyStr rid)).isSome = true := by
      rw [hst3]
      rw [hasKey_foldl stepTable keyExtract hasKey_stepTable ts st2 (pyStr rid)]
      exact Or.inr hk2
    rw [hst4]
    rw [hasKey_foldl stepImage keyImage hasKey_stepImage is st3 (pyStr rid)]
    exact Or.inr hk3
  -- the menus-loop missing ids cause no key collision
  have hF : ∀ v ∈ st4.missing, pyStr v = pyStr rid → v = rid := by
    intro v hv hkv
    rw [hC] at hv
    rcases missing_src_foldl_stepMenu ms st1 v hv with h | h
    · have : st1.missing = ([] : List Val) := by
        rw [hst1, missing_foldl_const stepRestaurant missing_stepRestaurant]
      rw [this] at h
      simp at h
    · obtain ⟨e, he, hke⟩ := h
      exact hcol e he v hke hkv
  unfold backfill
  exact backfill_fills fetch rid payload hfetch hpay st4.missing st4.groups
    (hC ▸ hB) hF hE

/-- C8 witness: a single menus-collection hit for owner id 7, no primary
hits; the batch lookup resolves 7 and the final group carries the fetched
payload as primary attributes. -/
theorem C8_backfill_from_menus_witness :
    ∃ a, (finalGroups
        (fun v => if v = Val.i 7 then some [("name", Val.s "Quán X")] else Option.none)
        [] [⟨Val.i 0, [("restaurant_id", Val.i 7), ("name", Val.s "Phở bò")], Option.none⟩]
        [] []).lookup (pyStr (Val.i 7)) = some a ∧
      a.restaurant = some [("name", Val.s "Quán X")] := by
  refine C8_backfill_from_menus _ _ _ _ _ (Val.i 7) [("name", Val.s "Quán X")]
    ⟨_, List.mem_singleton_self _, by decide⟩ (by simp) ?_ (by simp) (by simp)
  intro e he v hv hkv
  rw [List.mem_singleton] at he
  subst he
  have : v = Val.i 7 := by
    have hd : extractRestaurantIdFromMetadata
        [("restaurant_id", Val.i 7), ("name", Val.s "Phở bò")] = some (Val.i 7) := by
      decide
    rw [hd] at hv
    exact (Option.some.inj hv).symm
  rw [this]

/-- C10: digit-string owner ids are normalized to integers before grouping
and the group key is the string form of the normalized id, so a primary hit
carrying owner id "s" (a digit string) and a menus hit carrying the integer
id int(s) land in one single aggregate entity. -/
theorem C10_digit_id_normalization (s : String) (hs : isDigitStr s = true)
    (d1 d2 : Option ℚ) :
    normalizeIdVal (Val.s s) = Val.i (digitsToNat s) ∧
    extractRestaurantIdFromMetadata [("restaurant_id", Val.s s)] =
      some (Val.i (digitsToNat s)) ∧
    ((aggregateSearchResults (fun _ => Option.none)
        [⟨Val.i 0, [("restaurant_id", Val.s s)], d1⟩]
        [⟨Val.i 1, [("restaurant_id", Val.i (digitsToNat s))], d2⟩]
        [] []).restaurants.length = 1) := by
  have hne : s ≠ "" := by
    intro hcon
    subst hcon
    exact absurd hs (by decide)
  have h1 : normalizeIdVal (Val.s s) = Val.i (digitsToNat s) := by
    simp only [normalizeIdVal]
    rw [if_pos hs]
  have h2 : extractRestaurantIdFromMetadata [("restaurant_id", Val.s s)] =
      some (Val.i (digitsToNat s)) := by
    unfold extractRestaurantIdFromMetadata candidateIdKeys
    rw [if_neg (by simp)]
    rw [List.findSome?_cons]
    have hcond : ¬(Val.s s = Val.none ∨ Val.s s = Val.s "") := by
      simp [hne]
    simp only [lookup_cons_self, if_neg hcond, h1]
  have h3 : extractRestaurantIdFromMetadata
      [("restaurant_id", Val.i (digitsToNat s))] =
      some (Val.i (digitsToNat s)) := rfl
  refine ⟨h1, h2, ?_⟩
  unfold aggregateSearchResults finalGroups backfill
  simp only [List.foldl_cons, List.foldl_nil]
  simp only [stepRestaurant, h2]
  simp only [applyAtKey, lookup_nil, assocSet]
  simp only [stepMenu, h3, lookup_cons_self, Option.getD_some]
  rw [if_neg (show ¬((updRestaurant (Val.i (digitsToNat s))
      [("restaurant_id", Val.s s)]
      (hitScore ⟨Val.i 0, [("restaurant_id", Val.s s)], d1⟩)
      Option.none).restaurant = Option.none) by
    unfold updRestaurant freshAggRestaurants
    simp)]
  simp only [applyAtKey, lookup_cons_self, assocSet]
  simp [List.mergeSort_singleton]

/-- C10 witness: owner ids "42" (string) and 42 (integer) join into one
aggregate entity. -/
theorem C10_digit_id_normalization_witness :
    normalizeIdVal (Val.s "42") = Val.i 42 ∧
    extractRestaurantIdFromMetadata [("restaurant_id", Val.s "42")] =
      some (Val.i 42) ∧
    ((aggregateSearchResults (fun _ => Option.none)
        [⟨Val.i 0, [("restaurant_id", Val.s "42")], Option.none⟩]
        [⟨Val.i 1, [("restaurant_id", Val.i 42)], Option.none⟩]
        [] []).restaurants.length = 1) := by
  have h := C10_digit_id_normalization "42" (by decide) Option.none Option.none
  have h42 : digitsToNat "42" = 42 := by decide
  rw [h42] at h
  exact h

/-- C6 counterexample: aggregation is not fully order-independent.  Two
primary-collection hits share owner id 42 but carry different attribute
payloads; the first presented hit's payload wins, so permuting the hit order
changes the aggregate entity's primary attributes. -/
theorem C6_counterexample :
    ([(⟨Val.i 0, [("id", Val.i 42), ("name", Val.s "A")], Option.none⟩ : SearchItem),
      ⟨Val.i 1, [("id", Val.i 42), ("name", Val.s "B")], Option.none⟩].Perm
     [⟨Val.i 1, [("id", Val.i 42), ("name", Val.s "B")], Option.none⟩,
      ⟨Val.i 0, [("id", Val.i 42), ("name", Val.s "A")], Option.none⟩]) ∧
    ((aggregateSearchResults (fun _ => Option.none)
      [⟨Val.i 0, [("id", Val.i 42), ("name", Val.s "A")], Option.none⟩,
       ⟨Val.i 1, [("id", Val.i 42), ("name", Val.s "B")], Option.none⟩]
      [] [] []).restaurants.map (fun e => pyGet e.attrs "name")) = [Val.s "A"] ∧
    ((aggregateSearchResults (fun _ => Option.none)
      [⟨Val.i 1, [("id", Val.i 42), ("name", Val.s "B")], Option.none⟩,
       ⟨Val.i 0, [("id", Val.i 42), ("name", Val.s "A")], Option.none⟩]
      [] [] []).restaurants.map (fun e => pyGet e.attrs "name")) = [Val.s "B"] := by
  refine ⟨List.Perm.swap _ _ _, ?_, ?_⟩ <;>
    · have hextA : extractRestaurantIdFromMetadata
          [("id", Val.i 42), ("name", Val.s "A")] = some (Val.i 42) := by decide
      have hextB : extractRestaurantIdFromMetadata
          [("id", Val.i 42), ("name", Val.s "B")] = some (Val.i 42) := by decide
      unfold aggregateSearchResults finalGroups backfill
      simp only [List.foldl_cons, List.foldl_nil, stepRestaurant, hextA, hextB]
      simp [applyAtKey, assocSet, updRestaurant, freshAggRestaurants,
        lookup_cons_self, lookup_nil, List.mergeSort_singleton, groupEntity,
        groupAttrs, pyGet, List.lookup]

/-- C6 (amended): permuting the order in which each collection's hits are
presented leaves every group's accumulated score, the set of group keys, and
each group's multiset of attached sub-items (menus, services, tables,
images) unchanged; re-running on the same input yields the identical output.
Full equality of primary attributes, however, depends on hit order when
several primary hits share an owner id with different payloads (the first
payload wins — see the counterexample). -/
theorem C6_permutation_invariance (fetch : Val → Option Metadata)
    (rs ms ts is rs' ms' ts' is' : List SearchItem)
    (hr : rs'.Perm rs) (hm : ms'.Perm ms) (ht : ts'.Perm ts) (hi : is'.Perm is) :
    (∀ k, scoreOf (finalGroups fetch rs' ms' ts' is') k =
      scoreOf (finalGroups fetch rs ms ts is) k) ∧
    (∀ k, (((finalGroups fetch rs' ms' ts' is').lookup k).isSome = true ↔
      ((finalGroups fetch rs ms ts is).lookup k).isSome = true)) ∧
    (∀ k, (menusOf (finalGroups fetch rs' ms' ts' is') k).Perm
      (menusOf (finalGroups fetch rs ms ts is) k)) ∧
    (∀ k, (servicesOf (finalGroups fetch rs' ms' ts' is') k).Perm
      (servicesOf (finalGroups fetch rs ms ts is) k)) ∧
    (∀ k, (tablesOf (finalGroups fetch rs' ms' ts' is') k).Perm
      (tablesOf (finalGroups fetch rs ms ts is) k)) ∧
    (∀ k, (imagesOf (finalGroups fetch rs' ms' ts' is') k).Perm
      (imagesOf (finalGroups fetch rs ms ts is) k)) ∧
    aggregateSearchResults fetch rs ms ts is =
      aggregateSearchResults fetch rs ms ts is := by
  refine ⟨?_, ?_, ?_, ?_, ?_, ?_, rfl⟩
  · intro k
    rw [scoreOf_finalGroups, scoreOf_finalGroups]
    unfold totalContrib
    rw [(hr.map (fun e => contribExtract e k)).sum_eq,
      (hm.map (fun e => contribExtract e k)).sum_eq,
      (ht.map (fun e => contribExtract e k)).sum_eq,
      (hi.map (fun e => contribImage e k)).sum_eq]
  · intro k
    rw [hasKey_finalGroups, hasKey_finalGroups]
    constructor
    · rintro (⟨e, he, hk⟩ | ⟨e, he, hk⟩ | ⟨e, he, hk⟩ | ⟨e, he, hk⟩)
      · exact Or.inl ⟨e, hr.mem_iff.mp he, hk⟩
      · exact Or.inr (Or.inl ⟨e, hm.mem_iff.mp he, hk⟩)
      · exact Or.inr (Or.inr (Or.inl ⟨e, ht.mem_iff.mp he, hk⟩))
      · exact Or.inr (Or.inr (Or.inr ⟨e, hi.mem_iff.mp he, hk⟩))
    · rintro (⟨e, he, hk⟩ | ⟨e, he, hk⟩ | ⟨e, he, hk⟩ | ⟨e, he, hk⟩)
      · exact Or.inl ⟨e, hr.mem_iff.mpr he, hk⟩
      · exact Or.inr (Or.inl ⟨e, hm.mem_iff.mpr he, hk⟩)
      · exact Or.inr (Or.inr (Or.inl ⟨e, ht.mem_iff.mpr he, hk⟩))
      · exact Or.inr (Or.inr (Or.inr ⟨e, hi.mem_iff.mpr he, hk⟩))
  · intro k
    rw [menusOf_finalGroups, menusOf_finalGroups]
    exact (hm.map (fun e => menuContrib e k)).flatten
  · intro k
    rw [servicesOf_finalGroups, servicesOf_finalGroups]
    exact (hm.map (fun e => serviceContrib e k)).flatten
  · intro k
    rw [tablesOf_finalGroups, tablesOf_finalGroups]
    exact ((hm.map (fun e => tableContribMenu e k)).flatten).append
      ((ht.map (fun e => tableContrib e k)).flatten)
  · intro k
    rw [imagesOf_finalGroups, imagesOf_finalGroups]
    exact (hi.map (fun e => imageContrib e k)).flatten

/-- C6 witness: swapping two menus-collection hits leaves the score of their
group unchanged. -/
theorem C6_permutation_invariance_witness :
    scoreOf (finalGroups (fun _ => Option.none) []
      [⟨Val.i 1, [("restaurant_id", Val.i 42), ("name", Val.s "Phở")], Option.none⟩,
       ⟨Val.i 0, [("restaurant_id", Val.i 42), ("name", Val.s "Bún")], Option.none⟩]
      [] []) "42" =
    scoreOf (finalGroups (fun _ => Option.none) []
      [⟨Val.i 0, [("restaurant_id", Val.i 42), ("name", Val.s "Bún")], Option.none⟩,
       ⟨Val.i 1, [("restaurant_id", Val.i 42), ("name", Val.s "Phở")], Option.none⟩]
      [] []) "42" :=
  (C6_permutation_invariance (fun _ => Option.none) [] _ [] [] [] _ [] []
    (List.Perm.refl _) (List.Perm.swap _ _ _) (List.Perm.refl _)
    (List.Perm.refl _)).1 "42"

/-- C1 counterexample: the emitted accumulated score is not the plain sum of
max(0, 1−distance) — it is that sum rounded (half-to-even) to 4 decimal
places.  A single primary hit at distance 1/3 contributes 2/3, but the
aggregate entity's score is 0.6667. -/
theorem C1_counterexample :
    ((aggregateSearchResults (fun _ => Option.none)
        [⟨Val.i 0, [("id", Val.i 7)], some (1/3)⟩] [] [] []).restaurants.map
      AggEntity.matchScore) = [6667/10000] ∧
    totalContrib "7" [⟨Val.i 0, [("id", Val.i 7)], some (1/3)⟩] [] [] [] = 2/3 ∧
    (6667/10000 : ℚ) ≠ 2/3 := by
  have hext : extractRestaurantIdFromMetadata [("id", Val.i 7)] =
      some (Val.i 7) := by decide
  have hround : pyRound4 (2/3) = 6667/10000 := by
    simp only [pyRound4]
    rw [show ((2:ℚ)/3) * 10000 = 20000/3 by norm_num]
    rw [show ⌊(20000/3 : ℚ)⌋ = 6666 by rw [Int.floor_eq_iff]; norm_num]
    norm_num
  refine ⟨?_, ?_, by norm_num⟩
  · unfold aggregateSearchResults finalGroups backfill
    simp only [List.foldl_cons, List.foldl_nil, stepRestaurant, hext]
    simp only [applyAtKey, assocSet, lookup_nil, updRestaurant, freshAggRestaurants]
    simp only [List.map_cons, List.map_nil, List.mergeSort_singleton]
    rw [show (groupEntity
        { restaurantId := Val.i 7, restaurant := some [("id", Val.i 7)],
          matchedMenus := [], matchedServices := [], matchedTables := [],
          matchedImages := [], score := 0 + hitScore ⟨Val.i 0, [("id", Val.i 7)],
            some (1/3)⟩, sources := {"restaurants"} }).matchScore =
        pyRound4 (2/3) by
      unfold groupEntity
      simp only
      norm_num [hitScore]]
    rw [hround]
  · have hp7 : Option.map pyStr
        (extractRestaurantIdFromMetadata [("id", Val.i 7)]) = some "7" := by
      rw [hext]
      decide
    unfold totalContrib
    simp only [List.map_cons, List.map_nil, List.sum_cons, List.sum_nil,
      contribExtract, keyExtract, hp7]
    norm_num [hitScore]

/-- C1 (amended): the aggregator groups hits by owner-entity key; every
emitted aggregate entity is the entity of exactly one group, its accumulated
score equals the sum of max(0, 1−distance) over every hit keyed to it —
regardless of source collection — rounded half-to-even to 4 decimal places,
and the entity list is sorted by this rounded score in descending order;
in the 42-scenario (two hits from different collections at distances 0.2 and
0.5) a single entity with id 42 and score (1−0.2)+(1−0.5) = 1.3 emerges
(1.3 is exact under rounding). -/
theorem C1_rounded_scores_sorted (fetch : Val → Option Metadata)
    (rs ms ts is : List SearchItem) :
    List.Sorted (fun a b : AggEntity => b.matchScore ≤ a.matchScore)
      (aggregateSearchResults fetch rs ms ts is).restaurants ∧
    (∀ ent ∈ (aggregateSearchResults fetch rs ms ts is).restaurants,
      ∃ k a, (finalGroups fetch rs ms ts is).lookup k = some a ∧
        ent = groupEntity a ∧
        ent.matchScore = pyRound4 (totalContrib k rs ms ts is)) ∧
    (∃ ent, (aggregateSearchResults (fun _ => Option.none) []
        [⟨Val.i 0, [("restaurant_id", Val.i 42), ("name", Val.s "Phở bò")],
          some (2/10)⟩]
        [⟨Val.i 1, [("restaurant_id", Val.i 42), ("tableName", Val.s "T1")],
          some (5/10)⟩]
        []).restaurants = [ent] ∧
      ent.matchScore = 13/10 ∧ ent.attrs.lookup "id" = some (Val.i 42)) := by
  refine ⟨?_, ?_, ?_⟩
  · show List.Sorted (fun a b : AggEntity => b.matchScore ≤ a.matchScore)
      (List.mergeSort ((finalGroups fetch rs ms ts is).map (fun p => groupEntity p.2))
        (fun a b => decide (b.matchScore ≤ a.matchScore)))
    have hs := @List.sorted_mergeSort AggEntity
      (fun a b : AggEntity => decide (b.matchScore ≤ a.matchScore))
      (fun a b c h1 h2 => by
        simp only [decide_eq_true_eq] at h1 h2 ⊢
        exact le_trans h2 h1)
      (fun a b => by
        rcases le_total b.matchScore a.matchScore with h | h <;> simp [h])
      ((finalGroups fetch rs ms ts is).map (fun p => groupEntity p.2))
    exact hs.imp (fun h => of_decide_eq_true h)
  · intro ent hent
    have hperm := List.mergeSort_perm
      ((finalGroups fetch rs ms ts is).map (fun p => groupEntity p.2))
      (fun a b => decide (b.matchScore ≤ a.matchScore))
    have hent' : ent ∈ (finalGroups fetch rs ms ts is).map
        (fun p => groupEntity p.2) := hperm.mem_iff.mp hent
    obtain ⟨p, hp, hpe⟩ := List.mem_map.mp hent'
    have hl : (finalGroups fetch rs ms ts is).lookup p.1 = some p.2 :=
      lookup_eq_of_mem _ (nodup_keys_finalGroups fetch rs ms ts is) p.1 p.2 hp
    have hsc : p.2.score = totalContrib p.1 rs ms ts is := by
      have h0 := scoreOf_finalGroups fetch rs ms ts is p.1
      unfold scoreOf at h0
      rw [hl] at h0
      simpa using h0
    refine ⟨p.1, p.2, hl, hpe.symm, ?_⟩
    rw [← hpe]
    show pyRound4 p.2.score = _
    rw [hsc]
  · have hextm : extractRestaurantIdFromMetadata
        [("restaurant_id", Val.i 42), ("name", Val.s "Phở bò")] =
        some (Val.i 42) := by decide
    have hextt : extractRestaurantIdFromMetadata
        [("restaurant_id", Val.i 42), ("tableName", Val.s "T1")] =
        some (Val.i 42) := by decide
    have hdet : detectCollectionItemType
        [("restaurant_id", Val.i 42), ("name", Val.s "Phở bò")] = "menu" := by
      decide
    have hround : pyRound4 (13/10) = 13/10 := by
      simp only [pyRound4]
      rw [show ((13:ℚ)/10) * 10000 = 13000 by norm_num]
      rw [show ⌊(13000 : ℚ)⌋ = 13000 by norm_num]
      norm_num
    unfold aggregateSearchResults finalGroups backfill
    simp only [List.foldl_cons, List.foldl_nil, stepMenu, stepTable, hextm, hextt]
    simp [applyAtKey, assocSet, lookup_nil, lookup_cons_self, updMenu, updTable,
      freshAggEmpty, hdet, backfillStep, addMissing, List.mergeSort_singleton]
    refine ⟨?_, by simp [groupEntity, groupAttrs]⟩
    show pyRound4 _ = 13/10
    rw [show hitScore ⟨Val.i 0,
        [("restaurant_id", Val.i 42), ("name", Val.s "Phở bò")], some (2/10)⟩ +
        hitScore ⟨Val.i 1,
        [("restaurant_id", Val.i 42), ("tableName", Val.s "T1")], some (5/10)⟩ =
        13/10 by norm_num [hitScore]]
    exact hround

end BookEat
